import Mathlib

/-!
Verification of the TermSurf terminal web-page renderer (`src/server.py`).

The development shallowly embeds the projection-and-rendering pipeline of the
source: the rectangle IoU used for deduplication, the pixel-to-character-grid
projection, the ASCII image codec, the canvas compositor with its link/image
registries and auto-image budget, and the two render entry points
(`BrowserSession.load_url` and `BrowserSession._render_fallback_url`).

External collaborators (Playwright snapshots, the `requests` network layer,
Pillow decoding/resampling, CairoSVG, `urllib` URL resolution) are modelled as
an explicit environment of functions; Python floats are modelled as exact
rationals; Python `int()` truncation toward zero is modelled by `rtrunc`.
-/

namespace TermSurf

/-- Truncation toward zero of a rational, the behaviour of Python `int(...)`
on a float: floor for nonnegative arguments, ceiling for negative ones. -/
def rtrunc (q : ℚ) : ℤ :=
  if q < 0 then ⌈q⌉ else ⌊q⌋

/-- Python `a in b` on strings: `a` occurs as a contiguous substring of `b`. -/
def strIn (a b : String) : Bool :=
  (List.range (b.data.length + 1)).any fun i => a.data.isPrefixOf (b.data.drop i)

/-- Python `s.endswith(suf)`. -/
def strEndsWith (s suf : String) : Bool :=
  suf.data.isSuffixOf s.data

/-- Python `s.lower()` (ASCII case folding suffices for the source's uses). -/
def strLower (s : String) : String :=
  String.mk (s.data.map Char.toLower)

/-- Python `s.startswith(pre)`. -/
def strStartsWith (s pre : String) : Bool :=
  pre.data.isPrefixOf s.data

/-- Python `s[:n]`: the first `n` characters. -/
def strTake (s : String) (n : ℕ) : String :=
  String.mk (s.data.take n)

/-- Python `s.rstrip()`: drop trailing whitespace. -/
def pyRstrip (s : String) : String :=
  String.mk (s.data.reverse.dropWhile Char.isWhitespace).reverse

/-- Python `s.strip()`: drop leading and trailing whitespace. -/
def pyStrip (s : String) : String :=
  String.mk (((s.data.dropWhile Char.isWhitespace).reverse.dropWhile
    Char.isWhitespace).reverse)

/-- Python `s.strip(c)` for a single character `c`: drop leading and trailing
copies of `c`. -/
def pyStripChar (s : String) (c : Char) : String :=
  String.mk (((s.data.dropWhile (· = c)).reverse.dropWhile (· = c)).reverse)

/-- Splitting a character list at `\n` separators. -/
def splitNl : List Char → List Char → List (List Char)
  | [], cur => [cur.reverse]
  | '\n' :: rest, cur => cur.reverse :: splitNl rest []
  | c :: rest, cur => splitNl rest (c :: cur)

/-- Python `str.splitlines()` restricted to `\n` separators: the empty string
yields `[]` and a trailing newline does not produce a final empty line. -/
def pySplitlines (s : String) : List String :=
  if s = "" then []
  else
    let ps := (splitNl s.data []).map String.mk
    if ps.getLast? = some "" then ps.dropLast else ps

/-- The source's `ROW_ASPECT` constant (default `0.52`). -/
def ROW_ASPECT : ℚ := 13 / 25

/-- The source's `AUTO_IMG_MAX` constant (default `3`). -/
def AUTO_IMG_MAX : ℕ := 3

/-- The source's `ASCII_IMG_W` constant (default `68`). -/
def ASCII_IMG_W : ℤ := 68

/-- A pixel-space rectangle `(x, y, w, h)`, the tuples fed to `rect_iou`. -/
abbrev Rect := ℤ × ℤ × ℤ × ℤ

/-- Embedding of `rect_iou` (src/server.py lines 152-165): intersection over
union of two rectangles, with the source's `max(1, ...)` denominator guard and
early `0.0` return when the intersection is empty. -/
def rect_iou (a b : Rect) : ℚ :=
  let ax := a.1; let ay := a.2.1; let aw := a.2.2.1; let ah := a.2.2.2
  let bx := b.1; let by' := b.2.1; let bw := b.2.2.1; let bh := b.2.2.2
  let ax2 := ax + aw; let ay2 := ay + ah
  let bx2 := bx + bw; let by2 := by' + bh
  let ix1 := max ax bx; let iy1 := max ay by'
  let ix2 := min ax2 bx2; let iy2 := min ay2 by2
  let iw := max 0 (ix2 - ix1); let ih := max 0 (iy2 - iy1)
  let inter := iw * ih
  if inter = 0 then 0
  else
    let area_a := aw * ah
    let area_b := bw * bh
    (inter : ℚ) / ((max 1 (area_a + area_b - inter) : ℤ) : ℚ)

/-- Two rectangles are geometrically disjoint: one lies entirely to the left
of, to the right of, above, or below the other. -/
def RectDisjoint (a b : Rect) : Prop :=
  a.1 + a.2.2.1 ≤ b.1 ∨ b.1 + b.2.2.1 ≤ a.1 ∨
  a.2.1 + a.2.2.2 ≤ b.2.1 ∨ b.2.1 + b.2.2.2 ≤ a.2.1

lemma rect_iou_nonneg (a b : Rect) : 0 ≤ rect_iou a b := by
  obtain ⟨ax, ay, aw, ah⟩ := a
  obtain ⟨bx, by', bw, bh⟩ := b
  simp only [rect_iou]
  split
  · exact le_refl 0
  · apply div_nonneg
    · have h1 : (0 : ℤ) ≤ max 0 (min (ax + aw) (bx + bw) - max ax bx) := le_max_left _ _
      have h2 : (0 : ℤ) ≤ max 0 (min (ay + ah) (by' + bh) - max ay by') := le_max_left _ _
      exact_mod_cast mul_nonneg h1 h2
    · have h3 : (0 : ℤ) ≤ max 1 (aw * ah + bw * bh -
          max 0 (min (ax + aw) (bx + bw) - max ax bx) *
          max 0 (min (ay + ah) (by' + bh) - max ay by')) :=
        le_trans zero_le_one (le_max_left _ _)
      exact_mod_cast h3

lemma rect_iou_le_one (a b : Rect) : rect_iou a b ≤ 1 := by
  obtain ⟨ax, ay, aw, ah⟩ := a
  obtain ⟨bx, by', bw, bh⟩ := b
  simp only [rect_iou]
  split
  · norm_num
  · rename_i hne
    set iw : ℤ := max 0 (min (ax + aw) (bx + bw) - max ax bx) with hiwdef
    set ih : ℤ := max 0 (min (ay + ah) (by' + bh) - max ay by') with hihdef
    have hiw0 : 0 ≤ iw := le_max_left _ _
    have hih0 : 0 ≤ ih := le_max_left _ _
    have hinter : 0 < iw * ih := by
      rcases lt_or_eq_of_le hiw0 with h | h
      · rcases lt_or_eq_of_le hih0 with h' | h'
        · exact mul_pos h h'
        · exact absurd (by rw [← h', mul_zero]) hne
      · exact absurd (by rw [← h, zero_mul]) hne
    have hiwpos : 0 < iw := by
      rcases lt_or_eq_of_le hiw0 with h | h
      · exact h
      · exact absurd (by rw [← h, zero_mul]) hne
    have hihpos : 0 < ih := by
      rcases lt_or_eq_of_le hih0 with h | h
      · exact h
      · exact absurd (by rw [← h, mul_zero]) hne
    have hiw_le : iw ≤ aw := by
      have h1 : min (ax + aw) (bx + bw) ≤ ax + aw := min_le_left _ _
      have h2 : ax ≤ max ax bx := le_max_left _ _
      have h3 : iw = min (ax + aw) (bx + bw) - max ax bx := by
        rw [hiwdef]; rw [max_eq_right]
        by_contra hc
        push_neg at hc
        rw [hiwdef] at hiwpos
        omega
      omega
    have hih_le : ih ≤ ah := by
      have h1 : min (ay + ah) (by' + bh) ≤ ay + ah := min_le_left _ _
      have h2 : ay ≤ max ay by' := le_max_left _ _
      have h3 : ih = min (ay + ah) (by' + bh) - max ay by' := by
        rw [hihdef]; rw [max_eq_right]
        by_contra hc
        push_neg at hc
        rw [hihdef] at hihpos
        omega
      omega
    have hiw_le' : iw ≤ bw := by
      have h1 : min (ax + aw) (bx + bw) ≤ bx + bw := min_le_right _ _
      have h2 : bx ≤ max ax bx := le_max_right _ _
      have h3 : iw = min (ax + aw) (bx + bw) - max ax bx := by
        rw [hiwdef]; rw [max_eq_right]
        by_contra hc
        push_neg at hc
        rw [hiwdef] at hiwpos
        omega
      omega
    have hih_le' : ih ≤ bh := by
      have h1 : min (ay + ah) (by' + bh) ≤ by' + bh := min_le_right _ _
      have h2 : by' ≤ max ay by' := le_max_right _ _
      have h3 : ih = min (ay + ah) (by' + bh) - max ay by' := by
        rw [hihdef]; rw [max_eq_right]
        by_contra hc
        push_neg at hc
        rw [hihdef] at hihpos
        omega
      omega
    have hinterA : iw * ih ≤ aw * ah :=
      mul_le_mul hiw_le hih_le hih0 (le_trans hiwpos.le hiw_le)
    have hinterB : iw * ih ≤ bw * bh :=
      mul_le_mul hiw_le' hih_le' hih0 (le_trans hiwpos.le hiw_le')
    have hunion : (1 : ℤ) ≤ aw * ah + bw * bh - iw * ih := by omega
    have hmax : max 1 (aw * ah + bw * bh - iw * ih) = aw * ah + bw * bh - iw * ih :=
      max_eq_right hunion
    rw [hmax, div_le_one (by exact_mod_cast lt_of_lt_of_le zero_lt_one hunion)]
    exact_mod_cast by omega

lemma rect_iou_self (a : Rect) (hw : 0 < a.2.2.1) (hh : 0 < a.2.2.2) :
    rect_iou a a = 1 := by
  obtain ⟨ax, ay, aw, ah⟩ := a
  simp only at hw hh
  simp only [rect_iou, max_self, min_self]
  have hiw : max 0 (ax + aw - ax) = aw := by omega
  have hih : max 0 (ay + ah - ay) = ah := by omega
  rw [hiw, hih]
  have hpos : 0 < aw * ah := mul_pos hw hh
  rw [if_neg (by omega)]
  have hmax : max 1 (aw * ah + aw * ah - aw * ah) = aw * ah := by omega
  rw [hmax, div_self]
  exact_mod_cast hpos.ne'

lemma rect_iou_comm (a b : Rect) : rect_iou a b = rect_iou b a := by
  obtain ⟨ax, ay, aw, ah⟩ := a
  obtain ⟨bx, by', bw, bh⟩ := b
  simp only [rect_iou]
  rw [max_comm ax bx, max_comm ay by', min_comm (ax + aw) (bx + bw),
    min_comm (ay + ah) (by' + bh), add_comm (aw * ah) (bw * bh)]

lemma rect_iou_disjoint (a b : Rect) (h : RectDisjoint a b) : rect_iou a b = 0 := by
  obtain ⟨ax, ay, aw, ah⟩ := a
  obtain ⟨bx, by', bw, bh⟩ := b
  simp only [RectDisjoint] at h
  simp only [rect_iou]
  rw [if_pos]
  rcases h with h | h | h | h
  · have h1 : min (ax + aw) (bx + bw) ≤ ax + aw := min_le_left _ _
    have h2 : bx ≤ max ax bx := le_max_right _ _
    have : max 0 (min (ax + aw) (bx + bw) - max ax bx) = 0 := by omega
    rw [this, zero_mul]
  · have h1 : min (ax + aw) (bx + bw) ≤ bx + bw := min_le_right _ _
    have h2 : ax ≤ max ax bx := le_max_left _ _
    have : max 0 (min (ax + aw) (bx + bw) - max ax bx) = 0 := by omega
    rw [this, zero_mul]
  · have h1 : min (ay + ah) (by' + bh) ≤ ay + ah := min_le_left _ _
    have h2 : by' ≤ max ay by' := le_max_right _ _
    have : max 0 (min (ay + ah) (by' + bh) - max ay by') = 0 := by omega
    rw [this, mul_zero]
  · have h1 : min (ay + ah) (by' + bh) ≤ by' + bh := min_le_right _ _
    have h2 : ay ≤ max ay by' := le_max_left _ _
    have : max 0 (min (ay + ah) (by' + bh) - max ay by') = 0 := by omega
    rw [this, mul_zero]

/-- C5 (amended): `rect_iou` is symmetric and bounded in `[0, 1]` for all
integer rectangles including degenerate ones; `rect_iou a a = 1` holds for
every rectangle of positive width and height (but not for zero-area
rectangles, see the counterexample); and disjoint rectangles yield `0`. -/
theorem C5_rect_iou_algebra (a b : Rect) :
    rect_iou a b = rect_iou b a ∧
    (0 ≤ rect_iou a b ∧ rect_iou a b ≤ 1) ∧
    (0 < a.2.2.1 → 0 < a.2.2.2 → rect_iou a a = 1) ∧
    (RectDisjoint a b → rect_iou a b = 0) :=
  ⟨rect_iou_comm a b, ⟨rect_iou_nonneg a b, rect_iou_le_one a b⟩,
    fun hw hh => rect_iou_self a hw hh, fun hd => rect_iou_disjoint a b hd⟩

/-- C5 witness: the amended theorem evaluated at the concrete rectangles
`(0,0,2,3)` and `(5,0,2,3)` (disjoint, positive area). -/
theorem C5_rect_iou_algebra_witness :
    rect_iou (0, 0, 2, 3) (5, 0, 2, 3) = rect_iou (5, 0, 2, 3) (0, 0, 2, 3) ∧
    rect_iou (0, 0, 2, 3) (0, 0, 2, 3) = 1 ∧
    rect_iou (0, 0, 2, 3) (5, 0, 2, 3) = 0 :=
  ⟨(C5_rect_iou_algebra (0, 0, 2, 3) (5, 0, 2, 3)).1,
    (C5_rect_iou_algebra (0, 0, 2, 3) (5, 0, 2, 3)).2.2.1 (by decide) (by decide),
    (C5_rect_iou_algebra (0, 0, 2, 3) (5, 0, 2, 3)).2.2.2 (Or.inl (by decide))⟩

/-- C5 counterexample: for the degenerate rectangle `(0,0,0,0)` the source
returns `0.0` (the `inter == 0` early return), not `1`, so the claim
`rect_iou a a = 1` for *every* rectangle fails. -/
theorem C5_rect_iou_self_degenerate_counterexample :
    rect_iou (0, 0, 0, 0) (0, 0, 0, 0) = 0 ∧
    rect_iou (0, 0, 0, 0) (0, 0, 0, 0) ≠ 1 := by
  refine ⟨by decide, by decide⟩

/-- One geometry node of a Playwright DOM snapshot: the dict
`{tag, x, y, w, h, z, txt, href, src, bg, fw, disp}` built in `snapshot_dom`.
Optional string fields are the empty string when absent, as produced by the
collaborator's JavaScript. -/
structure Node where
  tag : String
  x : ℤ
  y : ℤ
  w : ℤ
  h : ℤ
  z : ℤ
  txt : String
  href : String
  src : String
  bg : String
  fw : String
  disp : String
deriving DecidableEq

/-- The parse-level content of a fallback (requests + BeautifulSoup) page
fetch: final URL after redirects, the raw `src` of each `<img>`, the raw
`(href, text)` of each `<a>`, and the soup's extracted text. The HTML parse
itself is an external collaborator. -/
structure FallbackDoc where
  final_url : String
  imgTags : List String
  aTags : List (String × String)
  text : String

/-- A decoded single-channel (Pillow mode "L") image: its source dimensions.
Pixel data appears only after the external `resize`. -/
structure PILImg where
  width : ℕ
  height : ℕ
deriving DecidableEq

/-- The environment of external collaborators: capability flags and the
outcome functions of Playwright snapshot capture, the `requests` fetches,
Pillow decode/resize (resize yields the `getdata()` luminance bytes, each in
`0..255` by the mode-"L" contract) and `urllib.parse.urljoin`. An `.error`
value models the Python call raising. -/
structure Env where
  have_pw : Bool
  have_pil : Bool
  have_cairosvg : Bool
  snapshot_dom : String → Except String (List Node × String)
  fallback_get : String → Except String FallbackDoc
  fetch_bytes : String → String → Except String (List ℕ × String)
  decode : List ℕ → Except String PILImg
  resize : PILImg → ℕ → ℕ → List (Fin 256)
  urljoin : String → String → String

/-- The source's `ASCII_RAMP` constant. -/
def ASCII_RAMP : String := "@%#*+=-:. "

/-- The quantisation `ASCII_RAMP[int(p/255*(len(ASCII_RAMP)-1))]` of one
luminance value: ramp index `⌊p * 9 / 255⌋`. -/
def rampChar (p : Fin 256) : Char :=
  ASCII_RAMP.data.getD (p.val * 9 / 255) ' '

/-- The line chunking `[chars[i:i+w] for i in range(0, len(chars), w)]`. -/
def chunkRows (w : ℕ) (chars : List Char) : List (List Char) :=
  (List.range ((chars.length + w - 1) / w)).map fun i => (chars.drop (i * w)).take w

/-- The codec's output width `w = max(20, int(width))`. -/
def codecW (width : ℤ) : ℤ := max 20 width

/-- The codec's output height
`h = max(1, int(im.height * (w / im.width) * ROW_ASPECT))`: Python `int()`
truncation of the exact real value. -/
def codecH (imw imh : ℕ) (w : ℤ) : ℤ :=
  max 1 (rtrunc ((imh : ℚ) * ((w : ℚ) / (imw : ℚ)) * ROW_ASPECT))

/-- Embedding of `img_bytes_to_ascii` (src/server.py lines 119-132). Decoding
and resampling are the external Pillow collaborator; everything else follows
the source. A zero-width decoded image would raise `ZeroDivisionError` in
Python (caught by the same handler); Pillow never produces one, and the shape
theorem's resize contract covers only the dimensions actually requested. -/
def img_bytes_to_ascii (env : Env) (b : List ℕ) (width : ℤ) : String :=
  if env.have_pil = false then "(Pillow not installed; ASCII image disabled)\n"
  else
    match env.decode b with
    | .error e =>
        "(ASCII conversion error: " ++ e ++ " / If WEBP, ensure Pillow has WEBP support)\n"
    | .ok im =>
        let w : ℤ := codecW width
        let h : ℤ := codecH im.width im.height w
        let pixels := env.resize im w.toNat h.toNat
        let chars : List Char := pixels.map rampChar
        String.intercalate "\n" ((chunkRows w.toNat chars).map fun l => String.mk l) ++ "\n"

/-- Embedding of `BrowserSession._ascii_for` (src/server.py lines 463-471):
fetch the image bytes (any raised error becomes the fetch placeholder), skip
un-rasterisable SVG, otherwise run the codec. `cur` is `self.current_url`,
used as the referer. -/
def ascii_for (env : Env) (cur url : String) : String :=
  match env.fetch_bytes url cur with
  | .error e => "(Image fetch error: " ++ e ++ ")\n"
  | .ok (data, ctype) =>
      if (strIn "svg" ctype || strEndsWith (strLower url) ".svg") &&
          !(env.have_cairosvg) then
        "(SVG image skipped: CairoSVG not available) " ++ url ++ "\n"
      else img_bytes_to_ascii env data ASCII_IMG_W

lemma chunk_count (w h : ℕ) (hw : 0 < w) : (w * h + w - 1) / w = h := by
  have h1 : w * h + w - 1 = w * h + (w - 1) := by omega
  rw [h1, Nat.mul_add_div hw, Nat.div_eq_of_lt (by omega)]
  omega

lemma chunkRows_length (w h : ℕ) (hw : 0 < w) (chars : List Char)
    (hlen : chars.length = w * h) : (chunkRows w chars).length = h := by
  simp only [chunkRows, List.length_map, List.length_range, hlen]
  exact chunk_count w h hw

lemma chunkRows_mem_length (w h : ℕ) (hw : 0 < w) (chars : List Char)
    (hlen : chars.length = w * h) : ∀ l ∈ chunkRows w chars, l.length = w := by
  intro l hl
  simp only [chunkRows, List.mem_map, List.mem_range, hlen, chunk_count w h hw] at hl
  obtain ⟨i, hi, rfl⟩ := hl
  have hle : i * w + w ≤ w * h := by
    have h1 : i + 1 ≤ h := hi
    calc i * w + w = (i + 1) * w := by ring
    _ ≤ h * w := Nat.mul_le_mul_right w h1
    _ = w * h := by ring
  simp only [List.length_take, List.length_drop, hlen]
  omega

lemma chunkRows_subset (w : ℕ) (chars : List Char) :
    ∀ l ∈ chunkRows w chars, ∀ c ∈ l, c ∈ chars := by
  intro l hl c hc
  simp only [chunkRows, List.mem_map, List.mem_range] at hl
  obtain ⟨i, _, rfl⟩ := hl
  exact List.drop_subset _ _ (List.take_subset _ _ hc)

lemma rampChar_mem (p : Fin 256) : rampChar p ∈ ASCII_RAMP.data := by
  have hlen : ASCII_RAMP.data.length = 10 := rfl
  have hidx : p.val * 9 / 255 < ASCII_RAMP.data.length := by
    have hp : p.val ≤ 255 := Nat.lt_succ_iff.mp p.isLt
    have h9 : p.val * 9 ≤ 255 * 9 := Nat.mul_le_mul_right 9 hp
    have hq : p.val * 9 / 255 ≤ 9 := by omega
    omega
  rw [rampChar, List.getD_eq_getElem _ _ hidx]
  exact List.getElem_mem _

/-- C3 (amended): for every decodable image of positive source width and
every requested width, the codec's output is exactly `h` lines of exactly
`w` characters joined by newlines with a trailing newline, each character
drawn from the 10-character ramp by index `⌊p * 9 / 255⌋`, with
`w = max(20, requestedWidth)` and
`h = max(1, int(sourceHeight * (w / sourceWidth) * rowAspect))` — the source
truncates (`int(...)`) rather than rounding, which the counterexample
separates from the claimed `round`. -/
theorem C3_codec_shape (env : Env) (b : List ℕ) (width : ℤ) (im : PILImg)
    (hpil : env.have_pil = true)
    (hdec : env.decode b = Except.ok im)
    (hres : ∀ wn hn : ℕ, (env.resize im wn hn).length = wn * hn) :
    ∃ L : List (List Char),
      img_bytes_to_ascii env b width =
        String.intercalate "\n" (L.map fun l => String.mk l) ++ "\n" ∧
      L.length = (codecH im.width im.height (codecW width)).toNat ∧
      (∀ l ∈ L, l.length = (codecW width).toNat) ∧
      (∀ l ∈ L, ∀ c ∈ l, c ∈ ASCII_RAMP.data) := by
  have hw20 : (20 : ℤ) ≤ codecW width := le_max_left _ _
  have hwpos : 0 < (codecW width).toNat := by omega
  refine ⟨chunkRows (codecW width).toNat
    ((env.resize im (codecW width).toNat
      (codecH im.width im.height (codecW width)).toNat).map rampChar), ?_, ?_, ?_, ?_⟩
  · simp only [img_bytes_to_ascii, hpil, hdec]
    rw [if_neg (fun hc => Bool.true_eq_false.mp hc)]
  · have hchars : ((env.resize im (codecW width).toNat
        (codecH im.width im.height (codecW width)).toNat).map rampChar).length =
        (codecW width).toNat * (codecH im.width im.height (codecW width)).toNat := by
      rw [List.length_map, hres]
    exact chunkRows_length _ _ hwpos _ hchars
  · have hchars : ((env.resize im (codecW width).toNat
        (codecH im.width im.height (codecW width)).toNat).map rampChar).length =
        (codecW width).toNat * (codecH im.width im.height (codecW width)).toNat := by
      rw [List.length_map, hres]
    exact chunkRows_mem_length _ _ hwpos _ hchars
  · intro l hl c hc
    have hmem := chunkRows_subset _ _ l hl c hc
    obtain ⟨p, _, rfl⟩ := List.mem_map.mp hmem
    exact rampChar_mem p

/-- A default environment in which every collaborator call fails. -/
def env0 : Env where
  have_pw := true
  have_pil := true
  have_cairosvg := false
  snapshot_dom := fun _ => Except.error "snapshot failed"
  fallback_get := fun _ => Except.error "fetch failed"
  fetch_bytes := fun _ _ => Except.error "fetch failed"
  decode := fun _ => Except.error "decode failed"
  resize := fun _ _ _ => []
  urljoin := fun _ rel => rel

/-- Environment for the codec height counterexample: decoding yields a
20×3 image and resampling yields all-black pixels. -/
def envC3 : Env :=
  { env0 with
    decode := fun _ => Except.ok ⟨20, 3⟩
    resize := fun _ wn hn => List.replicate (wn * hn) 0 }

/-- C3 witness: the amended shape theorem evaluated on the concrete 20×3
image with requested width 20. -/
theorem C3_codec_shape_witness :
    ∃ L : List (List Char),
      img_bytes_to_ascii envC3 [] 20 =
        String.intercalate "\n" (L.map fun l => String.mk l) ++ "\n" ∧
      L.length = (codecH 20 3 (codecW 20)).toNat ∧
      (∀ l ∈ L, l.length = (codecW 20).toNat) ∧
      (∀ l ∈ L, ∀ c ∈ l, c ∈ ASCII_RAMP.data) :=
  C3_codec_shape envC3 [] 20 ⟨20, 3⟩ rfl rfl
    (fun wn hn => by simp [envC3, env0])

lemma codecW_twenty : codecW 20 = 20 := by
  rw [codecW]; omega

lemma codecH_twenty_three : codecH 20 3 20 = 1 := by
  rw [codecH, ROW_ASPECT, rtrunc]
  rw [if_neg (by norm_num)]
  rw [show ((3 : ℕ) : ℚ) * (((20 : ℤ) : ℚ) / ((20 : ℕ) : ℚ)) * (13 / 25) = 39 / 25 by norm_num]
  rw [show ⌊(39 : ℚ) / 25⌋ = 1 by norm_num]
  omega

/-- C3 counterexample: a decodable 20×3 source image at requested width 20
produces `max(1, int(3 * 1 * 0.52)) = max(1, int(1.56)) = 1` output line —
the output is one 20-character ramp line with a single (trailing) newline —
while the claimed `h = max(1, round(1.56)) = 2` would require two lines and
two newline characters: the code truncates where the claim rounds. -/
theorem C3_codec_height_counterexample :
    img_bytes_to_ascii envC3 [] 20 = "@@@@@@@@@@@@@@@@@@@@\n" ∧
    (img_bytes_to_ascii envC3 [] 20).data.count '\n' = 1 ∧
    (1 : ℕ) ≠ (max 1 (round ((3 : ℚ) * ((20 : ℚ) / (20 : ℚ)) * ROW_ASPECT))).toNat := by
  have hout : img_bytes_to_ascii envC3 [] 20 = "@@@@@@@@@@@@@@@@@@@@\n" := by
    have h1 : envC3.decode [] = Except.ok ⟨20, 3⟩ := rfl
    simp only [img_bytes_to_ascii, h1]
    rw [codecW_twenty, codecH_twenty_three]
    decide
  refine ⟨hout, by rw [hout]; decide, ?_⟩
  have hr : round ((3 : ℚ) * ((20 : ℚ) / (20 : ℚ)) * ROW_ASPECT) = 2 := by
    rw [ROW_ASPECT]
    rw [show (3 : ℚ) * ((20 : ℚ) / (20 : ℚ)) * (13 / 25) = 39 / 25 by norm_num]
    rw [round_eq]
    norm_num
  rw [hr]
  decide

/-- C8 (confirmed): the codec is total on failure: if Pillow is absent or
decoding raises, `img_bytes_to_ascii` returns the corresponding placeholder
line; an image-fetch failure makes `_ascii_for` return its placeholder line;
and every output of both functions ends in a newline. -/
lemma endsWithNewline_of (s t u : String) (h : t ++ "\n" = u) :
    ∃ p, s ++ u = p ++ "\n" :=
  ⟨s ++ t, by rw [String.append_assoc, h]⟩

theorem C8_codec_failure_placeholder (env : Env) (b : List ℕ) (width : ℤ)
    (e cur url : String) :
    (env.have_pil = false →
      img_bytes_to_ascii env b width = "(Pillow not installed; ASCII image disabled)\n") ∧
    (env.have_pil = true → env.decode b = Except.error e →
      img_bytes_to_ascii env b width =
        "(ASCII conversion error: " ++ e ++ " / If WEBP, ensure Pillow has WEBP support)\n") ∧
    (env.fetch_bytes url cur = Except.error e →
      ascii_for env cur url = "(Image fetch error: " ++ e ++ ")\n") ∧
    (∃ p, img_bytes_to_ascii env b width = p ++ "\n") ∧
    (∃ p, ascii_for env cur url = p ++ "\n") := by
  have hcodec : ∀ env' b' w', ∃ p, img_bytes_to_ascii env' b' w' = p ++ "\n" := by
    intro env' b' w'
    rw [img_bytes_to_ascii]
    split
    · exact ⟨"(Pillow not installed; ASCII image disabled)", by decide⟩
    · split
      · rename_i e' _
        exact endsWithNewline_of _ " / If WEBP, ensure Pillow has WEBP support)" _ (by decide)
      · exact ⟨_, rfl⟩
  refine ⟨?_, ?_, ?_, hcodec env b width, ?_⟩
  · intro h
    rw [img_bytes_to_ascii, if_pos h]
  · intro h1 h2
    rw [img_bytes_to_ascii, if_neg (by rw [h1]; exact fun hc => Bool.true_eq_false.mp hc), h2]
  · intro h
    rw [ascii_for, h]
  · rw [ascii_for]
    split
    · rename_i e' _
      exact endsWithNewline_of _ ")" _ (by decide)
    · split
      · exact endsWithNewline_of _ "" _ (by decide)
      · exact hcodec env _ ASCII_IMG_W

/-- C8 witness: the failure placeholders evaluated in concrete environments
(`envC8` has no Pillow; `env0` fails every decode and fetch). -/
def envC8 : Env := { env0 with have_pil := false }

/-- C8 witness theorem: concrete placeholder outputs. -/
theorem C8_codec_failure_placeholder_witness :
    img_bytes_to_ascii envC8 [] 20 = "(Pillow not installed; ASCII image disabled)\n" ∧
    img_bytes_to_ascii env0 [] 20 =
      "(ASCII conversion error: " ++ "decode failed" ++ " / If WEBP, ensure Pillow has WEBP support)\n" ∧
    ascii_for env0 "ref" "http://x/a.png" =
      "(Image fetch error: " ++ "fetch failed" ++ ")\n" :=
  ⟨(C8_codec_failure_placeholder envC8 [] 20 "decode failed" "ref" "http://x/a.png").1 rfl,
   (C8_codec_failure_placeholder env0 [] 20 "decode failed" "ref" "http://x/a.png").2.1 rfl rfl,
   (C8_codec_failure_placeholder env0 [] 20 "fetch failed" "ref" "http://x/a.png").2.2.1 rfl⟩

/-- Splitting a character list at a given separator character. -/
def splitCh (sep : Char) : List Char → List Char → List (List Char)
  | [], cur => [cur.reverse]
  | c :: rest, cur =>
      if c = sep then cur.reverse :: splitCh sep rest []
      else splitCh sep rest (c :: cur)

/-- The words of a text, split on spaces (snapshot text is already
whitespace-collapsed by the collaborator's `replace(/\s+/g,' ')`). -/
def pyWords (s : String) : List String :=
  ((splitCh ' ' s.data []).map String.mk).filter (· ≠ "")

/-- Greedy word wrap: the behaviour of Python
`textwrap.wrap(para, width, break_long_words=False, replace_whitespace=False)`
on single-space-collapsed text — pack words into lines of at most `width`
characters separated by single spaces, never breaking a word, a word longer
than `width` occupying a line of its own. -/
def greedyWrap (width : ℕ) (words : List String) : List String :=
  let r := words.foldl
    (fun (acc : List String × String) (word : String) =>
      if acc.2 = "" then (acc.1, word)
      else if acc.2.length + 1 + word.length ≤ width then (acc.1, acc.2 ++ " " ++ word)
      else (acc.1 ++ [acc.2], word))
    ([], "")
  if r.2 = "" then r.1 else r.1 ++ [r.2]

/-- The per-paragraph wrapping loop of `TermCanvas.draw_text_block`
(src/server.py lines 402-408): split the text into lines, right-strip each,
keep blank paragraphs as one empty line, wrap the rest (an empty wrap result
also yields one empty line). -/
def wrapText (text : String) (width : ℕ) : List String :=
  ((pySplitlines text).map fun para =>
    let para := pyRstrip para
    if para = "" then [""]
    else
      let ls := greedyWrap width (pyWords para)
      if ls = [] then [""] else ls).flatten

/-- One painted line of `draw_text_block`: the bold marker wrapping
`s = ("**" + line + "**") if bold else line` followed by the truncation
`s = s[:width_cols]` (src/server.py lines 412-413). -/
def paintedLine (bold : Bool) (width : ℕ) (line : String) : List Char :=
  ((if bold then "**" ++ line ++ "**" else line).data).take width

/-- The full list of painted lines of one `draw_text_block` call, including
the `width_cols <= 5 or not text` guard (src/server.py line 401). -/
def textBlockLines (width_cols : ℤ) (text : String) (bold : Bool) : List (List Char) :=
  if width_cols ≤ 5 ∨ text = "" then []
  else (wrapText text width_cols.toNat).map (paintedLine bold width_cols.toNat)

/-- Embedding of `TermCanvas` (src/server.py lines 391-432): a fixed-width,
growable-height character grid. -/
structure TermCanvas where
  W : ℕ
  lines : List (List Char)

/-- Embedding of `TermCanvas._ensure_rows`. -/
def ensure_rows (c : TermCanvas) (rows : ℤ) : TermCanvas :=
  if (c.lines.length : ℤ) < rows then
    { c with lines := c.lines ++
        List.replicate (rows - c.lines.length).toNat (List.replicate c.W ' ') }
  else c

/-- The per-character placement loop `for i, ch in enumerate(s): ...` with
its `0 <= c < self.W` clip. -/
def writeCells (W : ℕ) : List Char → ℤ → List Char → List Char
  | row, _, [] => row
  | row, col, ch :: rest =>
      writeCells W (if 0 ≤ col ∧ col < (W : ℤ) then row.set col.toNat ch else row)
        (col + 1) rest

/-- Update one canvas row in place. Negative row indices (which in Python
would index from the end) do not occur for snapshot nodes, whose `y ≥ 0`. -/
def setRow (ls : List (List Char)) (r : ℕ) (f : List Char → List Char) :
    List (List Char) :=
  ls.set r (f (ls.getD r []))

/-- Embedding of `TermCanvas.draw_text_block` (src/server.py lines 400-418). -/
def draw_text_block (c : TermCanvas) (top_row left_col width_cols : ℤ)
    (text : String) (bold : Bool) : TermCanvas :=
  ((textBlockLines width_cols text bold).foldl
    (fun (acc : TermCanvas × ℤ) sline =>
      let c1 := ensure_rows acc.1 (acc.2 + 1)
      ({ c1 with lines := (setRow c1.lines acc.2.toNat
          (fun row => writeCells c1.W row left_col sline)) }, acc.2 + 1))
    (c, top_row)).1

/-- Embedding of `TermCanvas.draw_ascii_image` (src/server.py lines 420-429). -/
def draw_ascii_image (c : TermCanvas) (top_row left_col : ℤ) (ascii_art : String)
    (max_w : ℤ) : TermCanvas :=
  if ascii_art = "" then c
  else
    ((pySplitlines ascii_art).enum).foldl
      (fun (acc : TermCanvas) (p : ℕ × String) =>
        let c1 := ensure_rows acc (top_row + p.1 + 1)
        { c1 with lines := (setRow c1.lines (top_row + p.1).toNat
            (fun row => writeCells c1.W row left_col (p.2.data.take max_w.toNat))) })
      c

/-- Embedding of `TermCanvas.render`: join the rows, right-stripped. -/
def TermCanvas.render (c : TermCanvas) : String :=
  String.intercalate "\n" (c.lines.map fun row => pyRstrip (String.mk row))

/-- The compositor's bold flag
`bold = (n["fw"] in ("700","800","900","bold") or n["tag"] in ("h1","h2","h3"))`
(src/server.py line 567). -/
def boldOf (n : Node) : Bool :=
  ["700", "800", "900", "bold"].contains n.fw || ["h1", "h2", "h3"].contains n.tag

/-- C9 (amended): for a bold-flagged or top-level-heading node every painted
line is the wrapped line bracketed by literal `**` markers and then truncated
to the projected width: it always *begins* with `**` (the projected width is
at least 6), it also *ends* with `**` whenever the wrapped line is at least 4
characters narrower than the width, and the only characters added to the
wrapped line are `*` — no terminal control sequences. The claim's assertion
that the trailing marker survives even for lines close to the projected
width is false: the truncation `s[:width_cols]` cuts it (see the
counterexample). -/
theorem C9_bold_markers (n : Node) (width_cols : ℤ) (text line : String)
    (hbold : n.fw ∈ ["700", "800", "900", "bold"] ∨ n.tag ∈ ["h1", "h2", "h3"])
    (hw : 6 ≤ width_cols)
    (_hline : line ∈ wrapText text width_cols.toNat) :
    boldOf n = true ∧
    (paintedLine true width_cols.toNat line).take 2 = ['*', '*'] ∧
    (line.length + 4 ≤ width_cols.toNat →
      paintedLine true width_cols.toNat line = ("**" ++ line ++ "**").data ∧
      ∃ u, paintedLine true width_cols.toNat line = u ++ ['*', '*']) ∧
    (∀ ch ∈ paintedLine true width_cols.toNat line, ch = '*' ∨ ch ∈ line.data) := by
  have hdata : ("**" ++ line ++ "**").data = ('*' :: '*' :: line.data) ++ ['*', '*'] := by
    rw [String.data_append, String.data_append]
    rfl
  have hwn : 6 ≤ width_cols.toNat := by omega
  have hlen : ("**" ++ line ++ "**").data.length = line.data.length + 4 := by
    rw [hdata]; simp
  refine ⟨?_, ?_, ?_, ?_⟩
  · rcases hbold with h | h
    · simp [boldOf, h]
    · simp [boldOf, h]
  · rw [paintedLine, if_pos rfl, List.take_take, min_eq_left (by omega), hdata]
    rfl
  · intro hfit
    have hlen' : ("**" ++ line ++ "**").data.length ≤ width_cols.toNat := by
      rw [hlen]
      have : line.length = line.data.length := rfl
      omega
    constructor
    · rw [paintedLine, if_pos rfl]
      exact List.take_of_length_le hlen'
    · refine ⟨'*' :: '*' :: line.data, ?_⟩
      rw [paintedLine, if_pos rfl, List.take_of_length_le hlen']
      exact hdata
  · intro ch hch
    have hsub : ch ∈ ("**" ++ line ++ "**").data :=
      List.take_subset _ _ hch
    rw [hdata] at hsub
    rcases List.mem_append.mp hsub with h | h
    · rcases List.mem_cons.mp h with h | h
      · exact Or.inl h
      rcases List.mem_cons.mp h with h | h
      · exact Or.inl h
      · exact Or.inr h
    · rcases List.mem_cons.mp h with h | h
      · exact Or.inl h
      rcases List.mem_cons.mp h with h | h
      · exact Or.inl h
      · exact absurd h (List.not_mem_nil ch)

/-- C9 witness: the amended theorem evaluated on a concrete bold node with
width 10 and text `"hi"` (which wraps to the single line `"hi"`). -/
theorem C9_bold_markers_witness :
    boldOf ⟨"p", 0, 0, 0, 0, 0, "hi", "", "", "", "700", "block"⟩ = true ∧
    (paintedLine true (10 : ℤ).toNat "hi").take 2 = ['*', '*'] ∧
    ("hi".length + 4 ≤ (10 : ℤ).toNat →
      paintedLine true (10 : ℤ).toNat "hi" = ("**" ++ "hi" ++ "**").data ∧
      ∃ u, paintedLine true (10 : ℤ).toNat "hi" = u ++ ['*', '*']) ∧
    (∀ ch ∈ paintedLine true (10 : ℤ).toNat "hi", ch = '*' ∨ ch ∈ "hi".data) :=
  C9_bold_markers ⟨"p", 0, 0, 0, 0, 0, "hi", "", "", "", "700", "block"⟩ 10 "hi" "hi"
    (Or.inl (by decide)) (by decide) (by decide)

/-- C9 counterexample: a bold node of projected width 6 whose text is the
six-character word `"abcdef"` paints the line `**abcd` — the trailing `**`
marker is truncated away by `s[:width_cols]`, so the painted line does not
end with the marker even though the claim requires it for lines whose
wrapped width is close to the projected column width. -/
theorem C9_bold_truncation_counterexample :
    textBlockLines 6 "abcdef" true = [['*', '*', 'a', 'b', 'c', 'd']] ∧
    (['*', '*', 'a', 'b', 'c', 'd'].take 2 = ['*', '*']) ∧
    ¬ ∃ u, ['*', '*', 'a', 'b', 'c', 'd'] = u ++ ['*', '*'] := by
  refine ⟨by decide, by decide, ?_⟩
  rintro ⟨u, hu⟩
  have hlen : u.length = 4 := by
    have h := congrArg List.length hu
    simp at h
    omega
  have h5 := congrArg (fun l => l[5]?) hu
  simp only at h5
  rw [List.getElem?_append_right (by omega), hlen] at h5
  exact absurd h5 (by decide)

/-- The character list after the first `"://"` of a URL, if any. -/
def afterScheme : List Char → Option (List Char)
  | ':' :: '/' :: '/' :: rest => some rest
  | _ :: rest => afterScheme rest
  | [] => none

/-- Models `urllib.parse.urlparse(href).path` for the common URL shapes the
icon filter sees: strip any query/fragment, then — when a `scheme://host`
part is present — keep everything from the first `/` after the authority;
a URL with no scheme is all path. -/
def urlPath (href : String) : String :=
  let s := href.data.takeWhile fun c => !(c == '?' || c == '#')
  match afterScheme s with
  | none => String.mk s
  | some rest => String.mk (rest.dropWhile fun c => !(c == '/'))

/-- Embedding of `BrowserSession._is_icon_link` (src/server.py lines
456-461). -/
def is_icon_link (href text : String) : Bool :=
  let p := strLower (urlPath href)
  if [".png", ".jpg", ".jpeg", ".gif", ".webp", ".svg"].any
      (fun ext => strEndsWith p ext) then
    if ["icon", "bnr", "banner", "logo", "sns", "insta", "fb", "tiktok", "x_",
        "line"].any (fun k => strIn k p) then
      decide (text = "" ∨ text.length ≤ 1)
    else false
  else false

/-- Embedding of `BrowserSession._should_draw_text_node` (src/server.py lines
473-488): the text-node eligibility predicate. -/
def should_draw_text_node (n : Node) : Bool :=
  let txt := pyStrip n.txt
  if txt = "" then false
  else
    let tag := strLower n.tag
    let disp := strLower n.disp
    if ["h1", "h2", "h3", "h4", "h5", "h6", "p", "li", "figcaption", "td",
        "th"].contains tag then true
    else if ["button", "label"].contains tag then true
    else if tag = "a" then decide (5 ≤ txt.length)
    else if ["div", "span", "section", "article"].contains tag then
      if disp = "inline" then false else decide (30 ≤ txt.length)
    else false

/-- Embedding of `compress_blank` (src/server.py lines 110-116): collapse
runs of blank lines to a single blank line. -/
def compress_blank (s : String) : String :=
  String.intercalate "\n"
    (((pySplitlines s).foldl
      (fun (acc : List String × Bool) line =>
        let blank := pyStrip line = ""
        if blank ∧ acc.2 then acc else (acc.1 ++ [line], blank))
      ([], false)).1)

/-- An observation trace entry for one compositor paint call. The trace is a
specification device recorded alongside the render state; it does not feed
back into the computation. For a text block painted with a registered link,
`href` carries the link URL and the 1-based index appended to the text. -/
inductive PaintOp where
  | placeholder (src : String) (idx : ℕ) (row col width : ℤ)
  | asciiArt (src : String) (art : String) (row col maxw : ℤ)
  | textBlock (txt : String) (href : Option (String × ℕ)) (row col width : ℤ)
      (bold : Bool)
deriving DecidableEq

/-- The per-render mutable state of `BrowserSession.load_url`'s compositing
loop (src/server.py lines 556-560): canvas, registries with their seen-sets,
the auto-image budget counter and the placed-text dedup records, plus the
observation trace `ops`. -/
structure RState where
  canvas : TermCanvas
  link_map : List String
  image_map : List String
  link_seen : List String
  img_seen : List String
  auto_img_count : ℕ
  placed_text_rects : List (Rect × String)
  ops : List PaintOp

/-- The state at the start of one snapshot render: everything empty. -/
def initState (width : ℕ) : RState where
  canvas := ⟨width, []⟩
  link_map := []
  image_map := []
  link_seen := []
  img_seen := []
  auto_img_count := 0
  placed_text_rects := []
  ops := []

/-- The session configuration fields `load_url` reads: terminal width and
the `js_mode` / `auto_image` / `filter_icons` flags. -/
structure Cfg where
  width : ℕ
  js_mode : Bool
  auto_image : Bool
  filter_icons : Bool

/-- The projection of one node's pixel rectangle to the character grid
(src/server.py lines 563-566): `x = int(n.x * scale_x)`,
`y = int(n.y * scale_y)`, `w = max(6, int(n.w * scale_x))`,
`h = max(1, int(n.h * scale_y))`, with Python `int()` truncation. -/
def project (sx sy : ℚ) (n : Node) : Rect :=
  (rtrunc ((n.x : ℚ) * sx), rtrunc ((n.y : ℚ) * sy),
   max 6 (rtrunc ((n.w : ℚ) * sx)), max 1 (rtrunc ((n.h : ℚ) * sy)))

/-- The viewport width `vp_w = max([n["x"] + n["w"] for n in nodes] + [1200])`
(src/server.py line 552). -/
def vp_w (nodes : List Node) : ℤ :=
  (nodes.map fun n => n.x + n.w).foldl max 1200

/-- The CSS background-image URL text `n["bg"][4:-1].strip().strip('"').strip("'")`
(src/server.py line 585). -/
def bgInner (bg : String) : String :=
  pyStripChar (pyStripChar (pyStrip (String.mk ((bg.data.drop 4).dropLast))) '"') '\''

/-- Resolution of a background-image URL against the current page URL. -/
def bgUrl (env : Env) (base : String) (n : Node) : String :=
  env.urljoin base (bgInner n.bg)

/-- Python `list.index(x)`: position of the first occurrence (the source
only calls it on members, where it never raises). -/
def pyIndex : List String → String → ℕ
  | [], _ => 0
  | a :: t, x => if a = x then 0 else pyIndex t x + 1

/-- The shared image-registration block of the compositor (src/server.py
lines 570-581 for `img` nodes, repeated verbatim at lines 584-595 for
background images): register the source (first seen only), paint the
`[IMG <idx>]` placeholder, and — while the auto-image budget lasts — fetch,
convert and paint the ASCII art, incrementing the budget counter
unconditionally. -/
def imageBranch (cfg : Cfg) (env : Env) (cur : String) (s : RState)
    (src : String) (y x w : ℤ) : RState :=
  let s1 :=
    if src ∈ s.img_seen then s
    else { s with img_seen := s.img_seen ++ [src], image_map := s.image_map ++ [src] }
  let idx := pyIndex s1.image_map src + 1
  let s2 := { s1 with
    canvas := draw_text_block s1.canvas y x w ("[IMG " ++ toString idx ++ "]") false,
    ops := s1.ops ++ [PaintOp.placeholder src idx y x w] }
  if cfg.auto_image = true ∧ s2.auto_img_count < AUTO_IMG_MAX then
    let art := ascii_for env cur src
    { s2 with
      canvas := draw_ascii_image s2.canvas (y + 1) x art (min w ASCII_IMG_W),
      auto_img_count := s2.auto_img_count + 1,
      ops := s2.ops ++ [PaintOp.asciiArt src art (y + 1) x (min w ASCII_IMG_W)] }
  else s2

/-- The link-registration step inside the text branch (src/server.py lines
609-615): register a non-icon href (first seen only) and append the bracketed
index to the painted text; returns the new state, the text to paint, and the
registered link with its index for the trace. -/
def linkRegister (cfg : Cfg) (s : RState) (href txt : String) :
    RState × String × Option (String × ℕ) :=
  if href ≠ "" ∧ ¬(cfg.filter_icons = true ∧ is_icon_link href txt = true) then
    let s1 :=
      if href ∈ s.link_seen then s
      else { s with link_seen := s.link_seen ++ [href], link_map := s.link_map ++ [href] }
    let idx := pyIndex s1.link_map href + 1
    (s1, txt ++ " [" ++ toString idx ++ "]", some (href, idx))
  else (s, txt, none)

/-- The deduplication test of the text branch (src/server.py lines 601-605):
some already-placed record overlaps with IoU above `0.65` and has a
substring-related 24-character snippet. -/
def isDup (placed : List (Rect × String)) (r : Rect) (snippet : String) : Bool :=
  placed.any fun pr =>
    decide (rect_iou r pr.1 > 13 / 20) && (strIn snippet pr.2 || strIn pr.2 snippet)

/-- The text branch of the compositor (src/server.py lines 598-618):
eligibility check, deduplication, link registration, paint, record. -/
def textBranch (cfg : Cfg) (s : RState) (n : Node) (r : Rect) (bold : Bool) :
    RState :=
  if n.txt ≠ "" ∧ should_draw_text_node n = true then
    let snippet := strTake n.txt 24
    if isDup s.placed_text_rects r snippet = true then s
    else
      let reg := linkRegister cfg s n.href n.txt
      { reg.1 with
        canvas := draw_text_block reg.1.canvas r.2.1 r.1 r.2.2.1 reg.2.1 bold,
        ops := reg.1.ops ++ [PaintOp.textBlock reg.2.1 reg.2.2 r.2.1 r.1 r.2.2.1 bold],
        placed_text_rects := reg.1.placed_text_rects ++ [(r, snippet)] }
  else s

/-- One iteration of the compositing loop `for n in nodes:` (src/server.py
lines 562-618): project, then the `img` branch (with `continue`), then the
background-image branch (which falls through), then the text branch. -/
def composite_step (cfg : Cfg) (env : Env) (sx sy : ℚ) (cur : String)
    (s : RState) (n : Node) : RState :=
  let r := project sx sy n
  if n.tag = "img" ∧ n.src ≠ "" then
    imageBranch cfg env cur s n.src r.2.1 r.1 r.2.2.1
  else
    let s1 :=
      if strStartsWith n.bg "url(" = true then
        imageBranch cfg env cur s (bgUrl env cur n) r.2.1 r.1 r.2.2.1
      else s
    textBranch cfg s1 n r (boldOf n)

/-- The whole compositing loop over a snapshot's nodes. -/
def composite (cfg : Cfg) (env : Env) (sx sy : ℚ) (cur : String)
    (nodes : List Node) : RState :=
  nodes.foldl (composite_step cfg env sx sy cur) (initState cfg.width)

/-- The `[i] <url>` listing lines appended after the canvas, 1-based. -/
def enumIndexLines (l : List String) : List String :=
  l.enum.map fun p => "[" ++ toString (p.1 + 1) ++ "] <" ++ p.2 ++ ">"

/-- The snapshot branch of `load_url` after a successful nonempty snapshot
(src/server.py lines 551-633): compute the viewport scales, run the
compositing loop, then append the link/image listings and compress blank
lines. Returns the final state together with the page text. -/
def render_snapshot (cfg : Cfg) (env : Env) (url final_url : String)
    (nodes : List Node) : RState × String :=
  let cur := if final_url ≠ "" then final_url else url
  let scale_x : ℚ := (cfg.width : ℚ) / ((vp_w nodes : ℤ) : ℚ)
  let scale_y : ℚ := scale_x * ROW_ASPECT
  let s := composite cfg env scale_x scale_y cur nodes
  let l1 := ["# " ++ cur]
  let l2 := if s.link_map ≠ [] then l1 ++ ["\n-- Links --"] ++ enumIndexLines s.link_map
    else l1
  let l3 := if s.image_map ≠ [] then l2 ++ ["\n-- Images --"] ++ enumIndexLines s.image_map
    else l2
  let body := TermCanvas.render s.canvas ++ "\n" ++ String.intercalate "\n" l3 ++ "\n"
  (s, compress_blank body)

/-- Python `urllib.parse.urldefrag(u)[0]`: the URL with any fragment cut. -/
def urldefrag (u : String) : String :=
  String.mk (u.data.takeWhile fun c => !(c == '#'))

/-- First-seen-order deduplication of a list, the effect of the repeated
`if x not in xs: xs.append(x)` pattern. -/
def firstSeen (l : List String) : List String :=
  l.foldl (fun acc a => if a ∈ acc then acc else acc ++ [a]) []

/-- Embedding of `BrowserSession._render_fallback_url` (src/server.py lines
490-535). The initial `self.req.get` is *not* guarded by any handler in the
source, so its failure propagates out as `.error`; everything after the
fetch (parsing, listing, auto ASCII images) is total. -/
def render_fallback_url (cfg : Cfg) (env : Env) (url : String) :
    Except String String :=
  match env.fallback_get url with
  | .error e => .error e
  | .ok doc =>
      let cur := doc.final_url
      let imgs := firstSeen ((doc.imgTags.filter (· ≠ "")).map
        fun s0 => urldefrag (env.urljoin cur s0))
      let links := doc.aTags.foldl
        (fun (acc : List String) p =>
          if p.1 = "" then acc
          else
            let href := urldefrag (env.urljoin cur p.1)
            if cfg.filter_icons = true ∧ is_icon_link href p.2 = true then acc
            else if href ∈ acc then acc else acc ++ [href])
        []
      let text0 := compress_blank doc.text
      let text1 := if links ≠ [] then
          text0 ++ "\n\n-- Links --\n" ++ String.intercalate "\n" (enumIndexLines links)
        else text0
      let text2 := if imgs ≠ [] then
          text1 ++ "\n\n-- Images --\n" ++ String.intercalate "\n" (enumIndexLines imgs)
        else text1
      let text3 := if cfg.auto_image = true ∧ imgs ≠ [] then
          text2 ++ "\n\n-- Images (ASCII, auto) --\n" ++
            String.join ((imgs.take AUTO_IMG_MAX).enum.map fun p =>
              "[IMG " ++ toString (p.1 + 1) ++ "] " ++ p.2 ++ "\n" ++
                ascii_for env cur p.2 ++ "\n")
        else text2
      .ok text3

/-- Embedding of `BrowserSession.load_url` (src/server.py lines 537-636):
snapshot the DOM when JS mode is on and Playwright is present, falling back
to the non-projected renderer when the snapshot raises or is empty; `.error`
models an exception escaping the method. History bookkeeping (which cannot
raise) is omitted. -/
def load_url (cfg : Cfg) (env : Env) (url : String) : Except String String :=
  if cfg.js_mode = true ∧ env.have_pw = true then
    match env.snapshot_dom url with
    | .error _ => render_fallback_url cfg env url
    | .ok (nodes, final_url) =>
        if nodes = [] then render_fallback_url cfg env url
        else .ok (render_snapshot cfg env url final_url nodes).2
  else render_fallback_url cfg env url

lemma le_foldl_max (l : List ℤ) (b c : ℤ) (h : b ≤ c) : b ≤ l.foldl max c := by
  induction l generalizing c with
  | nil => exact h
  | cons a t ih => exact ih _ (le_trans h (le_max_left c a))

lemma vp_w_ge (nodes : List Node) : (1200 : ℤ) ≤ vp_w nodes :=
  le_foldl_max _ _ _ le_rfl

lemma rtrunc_eq_floor (q : ℚ) (h : 0 ≤ q) : rtrunc q = ⌊q⌋ :=
  if_neg (not_lt.mpr h)

lemma max_rtrunc_eq_max_floor (m : ℤ) (hm : 1 ≤ m) (q : ℚ) :
    max m (rtrunc q) = max m ⌊q⌋ := by
  rw [rtrunc]
  split
  · rename_i h
    have hc : ⌈q⌉ ≤ 0 := Int.ceil_le.mpr (by exact_mod_cast h.le)
    have hf : ⌊q⌋ ≤ ⌈q⌉ := Int.floor_le_ceil q
    rw [max_eq_left (by omega), max_eq_left (by omega)]
  · rfl

/-- C4 (confirmed): with `W` the configured width and `vp_w` the maximum
node right edge floored at 1200, the scales are `W / vp_w` and
`scaleX * rowAspect`, and projection is total and floor-clamped: for the
snapshot's nodes (whose `x, y ≥ 0` by the collaborator's clamping) the
projected rectangle is exactly
`(⌊x·sx⌋, ⌊y·sy⌋, max 6 ⌊w·sx⌋, max 1 ⌊h·sy⌋)`, and for *every* node —
including zero or negative width/height — the projected width is at least 6
and the height at least 1. -/
theorem C4_projection_total (cfg : Cfg) (nodes : List Node) (n : Node)
    (sx sy : ℚ)
    (hsx : sx = (cfg.width : ℚ) / ((vp_w nodes : ℤ) : ℚ))
    (hsy : sy = sx * ROW_ASPECT)
    (hx : 0 ≤ n.x) (hy : 0 ≤ n.y) :
    (1200 : ℤ) ≤ vp_w nodes ∧
    project sx sy n = (⌊(n.x : ℚ) * sx⌋, ⌊(n.y : ℚ) * sy⌋,
      max 6 ⌊(n.w : ℚ) * sx⌋, max 1 ⌊(n.h : ℚ) * sy⌋) ∧
    (∀ m : Node, 6 ≤ (project sx sy m).2.2.1 ∧ 1 ≤ (project sx sy m).2.2.2) := by
  have hvp : (1200 : ℤ) ≤ vp_w nodes := vp_w_ge nodes
  have hsx0 : 0 ≤ sx := by
    rw [hsx]
    apply div_nonneg
    · exact_mod_cast Nat.zero_le _
    · exact_mod_cast le_trans (by norm_num) hvp
  have hsy0 : 0 ≤ sy := by
    rw [hsy, ROW_ASPECT]
    positivity
  refine ⟨hvp, ?_, ?_⟩
  · simp only [project]
    rw [rtrunc_eq_floor _ (mul_nonneg (by exact_mod_cast hx) hsx0),
      rtrunc_eq_floor _ (mul_nonneg (by exact_mod_cast hy) hsy0),
      max_rtrunc_eq_max_floor 6 (by norm_num), max_rtrunc_eq_max_floor 1 le_rfl]
  · intro m
    exact ⟨le_max_left _ _, le_max_left _ _⟩

/-- C4 witness: the projection theorem evaluated at width 120, the empty
snapshot (viewport 1200, scale 1/10) and a degenerate node with negative
width and zero height. -/
theorem C4_projection_total_witness :
    (1200 : ℤ) ≤ vp_w [] ∧
    project ((((⟨120, true, true, true⟩ : Cfg).width : ℚ)) / ((vp_w [] : ℤ) : ℚ))
        (((((⟨120, true, true, true⟩ : Cfg).width : ℚ)) / ((vp_w [] : ℤ) : ℚ)) * ROW_ASPECT)
        ⟨"p", 5, 7, -3, 0, 0, "t", "", "", "", "", "block"⟩ =
      (⌊((5 : ℤ) : ℚ) * ((((⟨120, true, true, true⟩ : Cfg).width : ℚ)) / ((vp_w [] : ℤ) : ℚ))⌋,
       ⌊((7 : ℤ) : ℚ) * (((((⟨120, true, true, true⟩ : Cfg).width : ℚ)) / ((vp_w [] : ℤ) : ℚ)) * ROW_ASPECT)⌋,
       max 6 ⌊((-3 : ℤ) : ℚ) * ((((⟨120, true, true, true⟩ : Cfg).width : ℚ)) / ((vp_w [] : ℤ) : ℚ))⌋,
       max 1 ⌊((0 : ℤ) : ℚ) * (((((⟨120, true, true, true⟩ : Cfg).width : ℚ)) / ((vp_w [] : ℤ) : ℚ)) * ROW_ASPECT)⌋) ∧
    (∀ m : Node,
      6 ≤ (project ((((⟨120, true, true, true⟩ : Cfg).width : ℚ)) / ((vp_w [] : ℤ) : ℚ))
          (((((⟨120, true, true, true⟩ : Cfg).width : ℚ)) / ((vp_w [] : ℤ) : ℚ)) * ROW_ASPECT) m).2.2.1 ∧
      1 ≤ (project ((((⟨120, true, true, true⟩ : Cfg).width : ℚ)) / ((vp_w [] : ℤ) : ℚ))
          (((((⟨120, true, true, true⟩ : Cfg).width : ℚ)) / ((vp_w [] : ℤ) : ℚ)) * ROW_ASPECT) m).2.2.2) :=
  C4_projection_total ⟨120, true, true, true⟩ []
    ⟨"p", 5, 7, -3, 0, 0, "t", "", "", "", "", "block"⟩ _ _ rfl rfl
    (by decide) (by decide)

lemma pyIndex_append_of_mem {x : String} {l₁ l₂ : List String} (h : x ∈ l₁) :
    pyIndex (l₁ ++ l₂) x = pyIndex l₁ x := by
  induction l₁ with
  | nil => exact absurd h (List.not_mem_nil x)
  | cons a t ih =>
      by_cases hax : a = x
      · simp [pyIndex, hax]
      · rcases List.mem_cons.mp h with h' | h'
        · exact absurd h'.symm hax
        · simp [pyIndex, hax, ih h']

/-- Validity of one trace entry against the final registries: a painted
`[IMG idx]` placeholder carries the 1-based first-occurrence index of its
source in the image registry, and a painted link suffix carries the 1-based
first-occurrence index of its href in the link registry, appended to the
text as `" [idx]"`. -/
def OpValid (lm im : List String) : PaintOp → Prop
  | .placeholder src idx _ _ _ => src ∈ im ∧ idx = pyIndex im src + 1
  | .asciiArt _ _ _ _ _ => True
  | .textBlock txt info _ _ _ _ =>
      match info with
      | none => True
      | some pi => pi.1 ∈ lm ∧ pi.2 = pyIndex lm pi.1 + 1 ∧
          ∃ base, txt = base ++ " [" ++ toString pi.2 ++ "]"

lemma OpValid_mono {lm im : List String} (lt it : List String) {op : PaintOp}
    (h : OpValid lm im op) : OpValid (lm ++ lt) (im ++ it) op := by
  cases op with
  | placeholder src idx r c w =>
      obtain ⟨h1, h2⟩ := h
      exact ⟨List.mem_append_left _ h1, by rw [pyIndex_append_of_mem h1]; exact h2⟩
  | asciiArt src art r c w => trivial
  | textBlock txt info r c w b =>
      cases info with
      | none => trivial
      | some pi =>
          obtain ⟨h1, h2, h3⟩ := h
          exact ⟨List.mem_append_left _ h1,
            by rw [pyIndex_append_of_mem h1]; exact h2, h3⟩

/-- The compositing-loop invariant: the seen-sets mirror the registries, the
registries hold no duplicates, and every recorded paint op is valid against
the current registries. -/
structure Inv (s : RState) : Prop where
  img_sync : s.img_seen = s.image_map
  link_sync : s.link_seen = s.link_map
  img_nodup : s.image_map.Nodup
  link_nodup : s.link_map.Nodup
  ops_ok : ∀ op ∈ s.ops, OpValid s.link_map s.image_map op

lemma nodup_concat {l : List String} {a : String} (h : l.Nodup) (ha : a ∉ l) :
    (l ++ [a]).Nodup := by
  rw [List.nodup_append]
  refine ⟨h, List.nodup_singleton a, ?_⟩
  intro x hx hxa
  rcases List.mem_singleton.mp hxa with rfl
  exact ha hx

lemma initState_inv (width : ℕ) : Inv (initState width) :=
  ⟨rfl, rfl, List.nodup_nil, List.nodup_nil, fun op hop => absurd hop (List.not_mem_nil op)⟩

lemma imageBranch_placed (cfg : Cfg) (env : Env) (cur : String) (s : RState)
    (src : String) (y x w : ℤ) :
    (imageBranch cfg env cur s src y x w).placed_text_rects = s.placed_text_rects := by
  simp only [imageBranch]
  split <;> split <;> rfl

lemma imageBranch_link_map (cfg : Cfg) (env : Env) (cur : String) (s : RState)
    (src : String) (y x w : ℤ) :
    (imageBranch cfg env cur s src y x w).link_map = s.link_map := by
  simp only [imageBranch]
  split <;> split <;> rfl

lemma imageBranch_link_seen (cfg : Cfg) (env : Env) (cur : String) (s : RState)
    (src : String) (y x w : ℤ) :
    (imageBranch cfg env cur s src y x w).link_seen = s.link_seen := by
  simp only [imageBranch]
  split <;> split <;> rfl

lemma imageBranch_image_map_mem (cfg : Cfg) (env : Env) (cur : String) (s : RState)
    (src : String) (y x w : ℤ) (h : src ∈ s.img_seen) :
    (imageBranch cfg env cur s src y x w).image_map = s.image_map ∧
    (imageBranch cfg env cur s src y x w).img_seen = s.img_seen := by
  simp only [imageBranch, if_pos h]
  constructor <;> (split <;> rfl)

lemma imageBranch_image_map_new (cfg : Cfg) (env : Env) (cur : String) (s : RState)
    (src : String) (y x w : ℤ) (h : src ∉ s.img_seen) :
    (imageBranch cfg env cur s src y x w).image_map = s.image_map ++ [src] ∧
    (imageBranch cfg env cur s src y x w).img_seen = s.img_seen ++ [src] := by
  simp only [imageBranch, if_neg h]
  constructor <;> (split <;> rfl)

lemma imageBranch_count (cfg : Cfg) (env : Env) (cur : String) (s : RState)
    (src : String) (y x w : ℤ) :
    (imageBranch cfg env cur s src y x w).auto_img_count =
      (if cfg.auto_image = true ∧ s.auto_img_count < AUTO_IMG_MAX
        then s.auto_img_count + 1 else s.auto_img_count) := by
  by_cases hmem : src ∈ s.img_seen <;>
    by_cases hb : cfg.auto_image = true ∧ s.auto_img_count < AUTO_IMG_MAX <;>
    simp [imageBranch, hmem, hb]

lemma imageBranch_ops (cfg : Cfg) (env : Env) (cur : String) (s : RState)
    (src : String) (y x w : ℤ) :
    (imageBranch cfg env cur s src y x w).ops =
      s.ops ++ [PaintOp.placeholder src
          (pyIndex (imageBranch cfg env cur s src y x w).image_map src + 1) y x w] ++
        (if cfg.auto_image = true ∧ s.auto_img_count < AUTO_IMG_MAX
          then [PaintOp.asciiArt src (ascii_for env cur src) (y + 1) x (min w ASCII_IMG_W)]
          else []) := by
  by_cases hmem : src ∈ s.img_seen <;>
    by_cases hb : cfg.auto_image = true ∧ s.auto_img_count < AUTO_IMG_MAX <;>
    simp [imageBranch, hmem, hb]

lemma imageBranch_src_mem (cfg : Cfg) (env : Env) (cur : String) (s : RState)
    (src : String) (y x w : ℤ) (hsync : s.img_seen = s.image_map) :
    src ∈ (imageBranch cfg env cur s src y x w).image_map := by
  by_cases hmem : src ∈ s.img_seen
  · rw [(imageBranch_image_map_mem cfg env cur s src y x w hmem).1]
    rw [hsync] at hmem
    exact hmem
  · rw [(imageBranch_image_map_new cfg env cur s src y x w hmem).1]
    exact List.mem_append_right _ (List.mem_singleton.mpr rfl)

lemma imageBranch_inv (cfg : Cfg) (env : Env) (cur : String) (s : RState)
    (src : String) (y x w : ℤ) (hInv : Inv s) :
    Inv (imageBranch cfg env cur s src y x w) := by
  by_cases hmem : src ∈ s.img_seen
  · obtain ⟨hmap, hseen⟩ := imageBranch_image_map_mem cfg env cur s src y x w hmem
    refine ⟨by rw [hmap, hseen, hInv.img_sync],
      by rw [imageBranch_link_map, imageBranch_link_seen, hInv.link_sync],
      by rw [hmap]; exact hInv.img_nodup,
      by rw [imageBranch_link_map]; exact hInv.link_nodup, ?_⟩
    intro op hop
    rw [imageBranch_ops] at hop
    rw [imageBranch_link_map, hmap]
    rcases List.mem_append.mp hop with hop | hop
    · rcases List.mem_append.mp hop with hop | hop
      · exact hInv.ops_ok op hop
      · rcases List.mem_singleton.mp hop with rfl
        rw [hmap]
        exact ⟨by rw [← hInv.img_sync]; exact hmem, rfl⟩
    · split at hop
      · rcases List.mem_singleton.mp hop with rfl
        trivial
      · exact absurd hop (List.not_mem_nil _)
  · obtain ⟨hmap, hseen⟩ := imageBranch_image_map_new cfg env cur s src y x w hmem
    have hnotmap : src ∉ s.image_map := by rw [← hInv.img_sync]; exact hmem
    refine ⟨by rw [hmap, hseen, hInv.img_sync],
      by rw [imageBranch_link_map, imageBranch_link_seen, hInv.link_sync],
      by rw [hmap]; exact nodup_concat hInv.img_nodup hnotmap,
      by rw [imageBranch_link_map]; exact hInv.link_nodup, ?_⟩
    intro op hop
    rw [imageBranch_ops] at hop
    rw [imageBranch_link_map, hmap]
    rcases List.mem_append.mp hop with hop | hop
    · rcases List.mem_append.mp hop with hop | hop
      · have := hInv.ops_ok op hop
        have h2 := @OpValid_mono s.link_map s.image_map [] [src] op this
        rw [List.append_nil] at h2
        exact h2
      · rcases List.mem_singleton.mp hop with rfl
        rw [hmap]
        exact ⟨List.mem_append_right _ (List.mem_singleton.mpr rfl), rfl⟩
    · split at hop
      · rcases List.mem_singleton.mp hop with rfl
        trivial
      · exact absurd hop (List.not_mem_nil _)

lemma linkRegister_fields (cfg : Cfg) (s : RState) (href txt : String) :
    (linkRegister cfg s href txt).1.canvas = s.canvas ∧
    (linkRegister cfg s href txt).1.image_map = s.image_map ∧
    (linkRegister cfg s href txt).1.img_seen = s.img_seen ∧
    (linkRegister cfg s href txt).1.auto_img_count = s.auto_img_count ∧
    (linkRegister cfg s href txt).1.placed_text_rects = s.placed_text_rects ∧
    (linkRegister cfg s href txt).1.ops = s.ops := by
  simp only [linkRegister]
  split
  · refine ⟨?_, ?_, ?_, ?_, ?_, ?_⟩ <;> (split <;> rfl)
  · exact ⟨rfl, rfl, rfl, rfl, rfl, rfl⟩

lemma linkRegister_spec (cfg : Cfg) (s : RState) (href txt : String)
    (hsync : s.link_seen = s.link_map) (hnd : s.link_map.Nodup) :
    ((linkRegister cfg s href txt).1.link_map = s.link_map ∨
      ((linkRegister cfg s href txt).1.link_map = s.link_map ++ [href] ∧
        href ∉ s.link_map)) ∧
    (linkRegister cfg s href txt).1.link_seen = (linkRegister cfg s href txt).1.link_map ∧
    (linkRegister cfg s href txt).1.link_map.Nodup ∧
    (∀ (im : List String) (rr cc ww : ℤ) (bb : Bool),
      OpValid (linkRegister cfg s href txt).1.link_map im
        (PaintOp.textBlock (linkRegister cfg s href txt).2.1
          (linkRegister cfg s href txt).2.2 rr cc ww bb)) := by
  by_cases hc : href ≠ "" ∧ ¬(cfg.filter_icons = true ∧ is_icon_link href txt = true)
  · by_cases hmem : href ∈ s.link_seen
    · have hmem' : href ∈ s.link_map := by rw [← hsync]; exact hmem
      have heq : linkRegister cfg s href txt =
          (s, txt ++ " [" ++ toString (pyIndex s.link_map href + 1) ++ "]",
            some (href, pyIndex s.link_map href + 1)) := by
        simp only [linkRegister, if_pos hc, if_pos hmem]
      rw [heq]
      exact ⟨Or.inl rfl, hsync, hnd,
        fun im rr cc ww bb => ⟨hmem', rfl, ⟨txt, rfl⟩⟩⟩
    · have hnew : href ∉ s.link_map := by rw [← hsync]; exact hmem
      have heq : linkRegister cfg s href txt =
          ({ s with link_seen := s.link_seen ++ [href], link_map := s.link_map ++ [href] },
            txt ++ " [" ++ toString (pyIndex (s.link_map ++ [href]) href + 1) ++ "]",
            some (href, pyIndex (s.link_map ++ [href]) href + 1)) := by
        simp only [linkRegister, if_pos hc, if_neg hmem]
      rw [heq]
      exact ⟨Or.inr ⟨rfl, hnew⟩, by rw [hsync], nodup_concat hnd hnew,
        fun im rr cc ww bb =>
          ⟨List.mem_append_right _ (List.mem_singleton.mpr rfl), rfl, ⟨txt, rfl⟩⟩⟩
  · have heq : linkRegister cfg s href txt = (s, txt, none) := by
      simp only [linkRegister, if_neg hc]
    rw [heq]
    exact ⟨Or.inl rfl, hsync, hnd, fun im rr cc ww bb => trivial⟩

lemma textBranch_not_eligible (cfg : Cfg) (s : RState) (n : Node) (r : Rect)
    (bold : Bool) (h : ¬(n.txt ≠ "" ∧ should_draw_text_node n = true)) :
    textBranch cfg s n r bold = s := by
  simp only [textBranch, if_neg h]

lemma textBranch_dup (cfg : Cfg) (s : RState) (n : Node) (r : Rect) (bold : Bool)
    (heli : n.txt ≠ "" ∧ should_draw_text_node n = true)
    (hdup : isDup s.placed_text_rects r (strTake n.txt 24) = true) :
    textBranch cfg s n r bold = s := by
  simp only [textBranch, if_pos heli, if_pos hdup]

lemma textBranch_painted (cfg : Cfg) (s : RState) (n : Node) (r : Rect) (bold : Bool)
    (heli : n.txt ≠ "" ∧ should_draw_text_node n = true)
    (hdup : isDup s.placed_text_rects r (strTake n.txt 24) = false) :
    textBranch cfg s n r bold =
      { (linkRegister cfg s n.href n.txt).1 with
        canvas := draw_text_block (linkRegister cfg s n.href n.txt).1.canvas
          r.2.1 r.1 r.2.2.1 (linkRegister cfg s n.href n.txt).2.1 bold,
        ops := (linkRegister cfg s n.href n.txt).1.ops ++
          [PaintOp.textBlock (linkRegister cfg s n.href n.txt).2.1
            (linkRegister cfg s n.href n.txt).2.2 r.2.1 r.1 r.2.2.1 bold],
        placed_text_rects := (linkRegister cfg s n.href n.txt).1.placed_text_rects ++
          [(r, strTake n.txt 24)] } := by
  simp only [textBranch, if_pos heli]
  rw [if_neg (by rw [hdup]; exact Bool.false_ne_true)]

lemma textBranch_image_fields (cfg : Cfg) (s : RState) (n : Node) (r : Rect)
    (bold : Bool) :
    (textBranch cfg s n r bold).image_map = s.image_map ∧
    (textBranch cfg s n r bold).img_seen = s.img_seen ∧
    (textBranch cfg s n r bold).auto_img_count = s.auto_img_count := by
  by_cases heli : n.txt ≠ "" ∧ should_draw_text_node n = true
  · by_cases hdup : isDup s.placed_text_rects r (strTake n.txt 24) = true
    · rw [textBranch_dup cfg s n r bold heli hdup]
      exact ⟨rfl, rfl, rfl⟩
    · rw [textBranch_painted cfg s n r bold heli (Bool.not_eq_true _ ▸ hdup)]
      obtain ⟨-, h2, h3, h4, -, -⟩ := linkRegister_fields cfg s n.href n.txt
      exact ⟨h2, h3, h4⟩
  · rw [textBranch_not_eligible cfg s n r bold heli]
    exact ⟨rfl, rfl, rfl⟩

lemma textBranch_inv (cfg : Cfg) (s : RState) (n : Node) (r : Rect) (bold : Bool)
    (hInv : Inv s) : Inv (textBranch cfg s n r bold) := by
  by_cases heli : n.txt ≠ "" ∧ should_draw_text_node n = true
  · by_cases hdup : isDup s.placed_text_rects r (strTake n.txt 24) = true
    · rw [textBranch_dup cfg s n r bold heli hdup]
      exact hInv
    · rw [textBranch_painted cfg s n r bold heli (Bool.not_eq_true _ ▸ hdup)]
      obtain ⟨hreg, hsync', hnd', hval⟩ :=
        linkRegister_spec cfg s n.href n.txt hInv.link_sync hInv.link_nodup
      obtain ⟨-, himg, hiseen, -, -, hops⟩ := linkRegister_fields cfg s n.href n.txt
      refine ⟨by rw [hiseen, himg]; exact hInv.img_sync, hsync', by rw [himg]; exact hInv.img_nodup,
        hnd', ?_⟩
      intro op hop
      rw [hops] at hop
      rcases List.mem_append.mp hop with hop | hop
      · have hold := hInv.ops_ok op hop
        rcases hreg with hr | ⟨hr, -⟩
        · rw [hr, himg]
          have := @OpValid_mono s.link_map s.image_map [] [] op hold
          simpa using this
        · rw [hr, himg]
          have := @OpValid_mono s.link_map s.image_map [n.href] [] op hold
          simpa using this
      · rcases List.mem_singleton.mp hop with rfl
        rw [himg]
        exact hval s.image_map r.2.1 r.1 r.2.2.1 bold
  · rw [textBranch_not_eligible cfg s n r bold heli]
    exact hInv

lemma composite_step_img (cfg : Cfg) (env : Env) (sx sy : ℚ) (cur : String)
    (s : RState) (n : Node) (himg : n.tag = "img" ∧ n.src ≠ "") :
    composite_step cfg env sx sy cur s n =
      imageBranch cfg env cur s n.src (project sx sy n).2.1 (project sx sy n).1
        (project sx sy n).2.2.1 := by
  simp only [composite_step, if_pos himg]

lemma composite_step_bg (cfg : Cfg) (env : Env) (sx sy : ℚ) (cur : String)
    (s : RState) (n : Node) (hnimg : ¬(n.tag = "img" ∧ n.src ≠ ""))
    (hbg : strStartsWith n.bg "url(" = true) :
    composite_step cfg env sx sy cur s n =
      textBranch cfg
        (imageBranch cfg env cur s (bgUrl env cur n) (project sx sy n).2.1
          (project sx sy n).1 (project sx sy n).2.2.1)
        n (project sx sy n) (boldOf n) := by
  simp only [composite_step, if_neg hnimg, if_pos hbg]

lemma composite_step_text (cfg : Cfg) (env : Env) (sx sy : ℚ) (cur : String)
    (s : RState) (n : Node) (hnimg : ¬(n.tag = "img" ∧ n.src ≠ ""))
    (hnbg : strStartsWith n.bg "url(" = false) :
    composite_step cfg env sx sy cur s n =
      textBranch cfg s n (project sx sy n) (boldOf n) := by
  simp only [composite_step, if_neg hnimg]
  rw [if_neg (by rw [hnbg]; exact Bool.false_ne_true)]

lemma composite_step_inv (cfg : Cfg) (env : Env) (sx sy : ℚ) (cur : String)
    (s : RState) (n : Node) (hInv : Inv s) :
    Inv (composite_step cfg env sx sy cur s n) := by
  by_cases himg : n.tag = "img" ∧ n.src ≠ ""
  · rw [composite_step_img cfg env sx sy cur s n himg]
    exact imageBranch_inv _ _ _ _ _ _ _ _ hInv
  · by_cases hbg : strStartsWith n.bg "url(" = true
    · rw [composite_step_bg cfg env sx sy cur s n himg hbg]
      exact textBranch_inv _ _ _ _ _ (imageBranch_inv _ _ _ _ _ _ _ _ hInv)
    · rw [composite_step_text cfg env sx sy cur s n himg (Bool.not_eq_true _ ▸ hbg)]
      exact textBranch_inv _ _ _ _ _ hInv

lemma foldl_composite_inv (cfg : Cfg) (env : Env) (sx sy : ℚ) (cur : String)
    (nodes : List Node) (s : RState) (hInv : Inv s) :
    Inv (nodes.foldl (composite_step cfg env sx sy cur) s) := by
  induction nodes generalizing s with
  | nil => exact hInv
  | cons n t ih => exact ih _ (composite_step_inv cfg env sx sy cur s n hInv)

lemma composite_inv (cfg : Cfg) (env : Env) (sx sy : ℚ) (cur : String)
    (nodes : List Node) : Inv (composite cfg env sx sy cur nodes) :=
  foldl_composite_inv cfg env sx sy cur nodes _ (initState_inv cfg.width)

/-- The evolution of the auto-image budget counter across one node: any
image-bearing node (an `img` tag with a source, or a background-image block)
consumes one unit while `auto_image` is on and the budget lasts — regardless
of whether the fetch or conversion succeeds. -/
def countStep (cfg : Cfg) (n : Node) (c : ℕ) : ℕ :=
  if (n.tag = "img" ∧ n.src ≠ "") ∨ strStartsWith n.bg "url(" = true then
    if cfg.auto_image = true ∧ c < AUTO_IMG_MAX then c + 1 else c
  else c

lemma composite_step_count (cfg : Cfg) (env : Env) (sx sy : ℚ) (cur : String)
    (s : RState) (n : Node) :
    (composite_step cfg env sx sy cur s n).auto_img_count =
      countStep cfg n s.auto_img_count := by
  by_cases himg : n.tag = "img" ∧ n.src ≠ ""
  · rw [composite_step_img cfg env sx sy cur s n himg, imageBranch_count,
      countStep, if_pos (Or.inl himg)]
  · by_cases hbg : strStartsWith n.bg "url(" = true
    · rw [composite_step_bg cfg env sx sy cur s n himg hbg]
      obtain ⟨-, -, hcount⟩ := textBranch_image_fields cfg
        (imageBranch cfg env cur s (bgUrl env cur n) (project sx sy n).2.1
          (project sx sy n).1 (project sx sy n).2.2.1) n (project sx sy n) (boldOf n)
      rw [hcount, imageBranch_count, countStep, if_pos (Or.inr hbg)]
    · rw [composite_step_text cfg env sx sy cur s n himg (by simpa using hbg)]
      obtain ⟨-, -, hcount⟩ := textBranch_image_fields cfg s n (project sx sy n) (boldOf n)
      rw [hcount, countStep, if_neg (fun hor => hor.elim himg hbg)]

lemma foldl_composite_count (cfg : Cfg) (env : Env) (sx sy : ℚ) (cur : String)
    (nodes : List Node) (s : RState) :
    (nodes.foldl (composite_step cfg env sx sy cur) s).auto_img_count =
      nodes.foldl (fun c n => countStep cfg n c) s.auto_img_count := by
  induction nodes generalizing s with
  | nil => rfl
  | cons n t ih =>
      show (t.foldl (composite_step cfg env sx sy cur)
        (composite_step cfg env sx sy cur s n)).auto_img_count = _
      rw [ih, composite_step_count]
      rfl

lemma countStep_le (cfg : Cfg) (n : Node) (c : ℕ) (h : c ≤ AUTO_IMG_MAX) :
    countStep cfg n c ≤ AUTO_IMG_MAX := by
  rw [countStep]
  split
  · split
    · omega
    · exact h
  · exact h

lemma foldl_countStep_le (cfg : Cfg) (nodes : List Node) (c : ℕ)
    (h : c ≤ AUTO_IMG_MAX) :
    nodes.foldl (fun c n => countStep cfg n c) c ≤ AUTO_IMG_MAX := by
  induction nodes generalizing c with
  | nil => exact h
  | cons n t ih => exact ih _ (countStep_le cfg n c h)

/-- Ascii-art trace entries: one per codec invocation attempted. -/
def isAsciiOp : PaintOp → Bool
  | .asciiArt _ _ _ _ _ => true
  | _ => false

lemma textBranch_ascii_count (cfg : Cfg) (s : RState) (n : Node) (r : Rect)
    (bold : Bool) :
    (textBranch cfg s n r bold).ops.countP isAsciiOp = s.ops.countP isAsciiOp := by
  by_cases heli : n.txt ≠ "" ∧ should_draw_text_node n = true
  · by_cases hdup : isDup s.placed_text_rects r (strTake n.txt 24) = true
    · rw [textBranch_dup cfg s n r bold heli hdup]
    · rw [textBranch_painted cfg s n r bold heli (Bool.not_eq_true _ ▸ hdup)]
      show ((linkRegister cfg s n.href n.txt).1.ops ++ _).countP isAsciiOp = _
      rw [List.countP_append, (linkRegister_fields cfg s n.href n.txt).2.2.2.2.2]
      rfl
  · rw [textBranch_not_eligible cfg s n r bold heli]

lemma imageBranch_ascii_count (cfg : Cfg) (env : Env) (cur : String) (s : RState)
    (src : String) (y x w : ℤ)
    (h : s.ops.countP isAsciiOp = s.auto_img_count) :
    (imageBranch cfg env cur s src y x w).ops.countP isAsciiOp =
      (imageBranch cfg env cur s src y x w).auto_img_count := by
  rw [imageBranch_ops, imageBranch_count, List.countP_append, List.countP_append, h]
  split
  · rfl
  · rfl

lemma composite_step_ascii_count (cfg : Cfg) (env : Env) (sx sy : ℚ) (cur : String)
    (s : RState) (n : Node)
    (h : s.ops.countP isAsciiOp = s.auto_img_count) :
    (composite_step cfg env sx sy cur s n).ops.countP isAsciiOp =
      (composite_step cfg env sx sy cur s n).auto_img_count := by
  by_cases himg : n.tag = "img" ∧ n.src ≠ ""
  · rw [composite_step_img cfg env sx sy cur s n himg]
    exact imageBranch_ascii_count cfg env cur s n.src _ _ _ h
  · by_cases hbg : strStartsWith n.bg "url(" = true
    · rw [composite_step_bg cfg env sx sy cur s n himg hbg]
      rw [textBranch_ascii_count,
        (textBranch_image_fields cfg _ n (project sx sy n) (boldOf n)).2.2]
      exact imageBranch_ascii_count cfg env cur s (bgUrl env cur n) _ _ _ h
    · rw [composite_step_text cfg env sx sy cur s n himg (Bool.not_eq_true _ ▸ hbg)]
      rw [textBranch_ascii_count,
        (textBranch_image_fields cfg s n (project sx sy n) (boldOf n)).2.2]
      exact h

lemma foldl_composite_ascii_count (cfg : Cfg) (env : Env) (sx sy : ℚ) (cur : String)
    (nodes : List Node) (s : RState)
    (h : s.ops.countP isAsciiOp = s.auto_img_count) :
    (nodes.foldl (composite_step cfg env sx sy cur) s).ops.countP isAsciiOp =
      (nodes.foldl (composite_step cfg env sx sy cur) s).auto_img_count := by
  induction nodes generalizing s with
  | nil => exact h
  | cons n t ih => exact ih _ (composite_step_ascii_count cfg env sx sy cur s n h)

/-- The sequence of image sources the compositor's image branches encounter,
in paint order — independent of any state. -/
def imageEncounters (env : Env) (cur : String) (nodes : List Node) : List String :=
  (nodes.map fun n =>
    if n.tag = "img" ∧ n.src ≠ "" then [n.src]
    else if strStartsWith n.bg "url(" = true then [bgUrl env cur n]
    else []).flatten

/-- One `if x not in xs: xs.append(x)` registration step. -/
def regStep (acc : List String) (a : String) : List String :=
  if a ∈ acc then acc else acc ++ [a]

lemma firstSeen_eq_foldl (l : List String) : firstSeen l = l.foldl regStep [] := rfl

lemma imageBranch_image_map_reg (cfg : Cfg) (env : Env) (cur : String)
    (s : RState) (src : String) (y x w : ℤ) (hsync : s.img_seen = s.image_map) :
    (imageBranch cfg env cur s src y x w).image_map = regStep s.image_map src := by
  by_cases hmem : src ∈ s.image_map
  · rw [(imageBranch_image_map_mem cfg env cur s src y x w
      (by rw [hsync]; exact hmem)).1, regStep, if_pos hmem]
  · rw [(imageBranch_image_map_new cfg env cur s src y x w
      (by rw [hsync]; exact hmem)).1, regStep, if_neg hmem]

lemma composite_step_image_map (cfg : Cfg) (env : Env) (sx sy : ℚ) (cur : String)
    (s : RState) (n : Node) (hsync : s.img_seen = s.image_map) :
    (composite_step cfg env sx sy cur s n).image_map =
      (if n.tag = "img" ∧ n.src ≠ "" then [n.src]
       else if strStartsWith n.bg "url(" = true then [bgUrl env cur n]
       else []).foldl regStep s.image_map := by
  by_cases himg : n.tag = "img" ∧ n.src ≠ ""
  · rw [composite_step_img cfg env sx sy cur s n himg, if_pos himg,
      imageBranch_image_map_reg cfg env cur s n.src _ _ _ hsync]
    rfl
  · by_cases hbg : strStartsWith n.bg "url(" = true
    · rw [composite_step_bg cfg env sx sy cur s n himg hbg, if_neg himg, if_pos hbg]
      rw [(textBranch_image_fields cfg _ n (project sx sy n) (boldOf n)).1,
        imageBranch_image_map_reg cfg env cur s (bgUrl env cur n) _ _ _ hsync]
      rfl
    · rw [composite_step_text cfg env sx sy cur s n himg (by simpa using hbg),
        if_neg himg, if_neg hbg]
      exact (textBranch_image_fields cfg s n (project sx sy n) (boldOf n)).1

lemma foldl_composite_image_map (cfg : Cfg) (env : Env) (sx sy : ℚ) (cur : String)
    (nodes : List Node) (s : RState) (hInv : Inv s) :
    (nodes.foldl (composite_step cfg env sx sy cur) s).image_map =
      (imageEncounters env cur nodes).foldl regStep s.image_map := by
  induction nodes generalizing s with
  | nil => rfl
  | cons n t ih =>
      have hInv' := composite_step_inv cfg env sx sy cur s n hInv
      have henc : imageEncounters env cur (n :: t) =
          (if n.tag = "img" ∧ n.src ≠ "" then [n.src]
           else if strStartsWith n.bg "url(" = true then [bgUrl env cur n]
           else []) ++ imageEncounters env cur t := by
        simp [imageEncounters]
      show (t.foldl (composite_step cfg env sx sy cur)
        (composite_step cfg env sx sy cur s n)).image_map = _
      rw [ih _ hInv', henc, List.foldl_append,
        composite_step_image_map cfg env sx sy cur s n hInv.img_sync]

/-- The evolution of the placed-text dedup records across one node: image
(`img`) nodes leave them unchanged (`continue`); any other node appends its
projected rectangle and 24-character snippet exactly when it is eligible and
not judged a duplicate. This depends only on the previous placed records,
never on the registries. -/
def placedStep (sx sy : ℚ) (p : List (Rect × String)) (n : Node) :
    List (Rect × String) :=
  if n.tag = "img" ∧ n.src ≠ "" then p
  else if n.txt ≠ "" ∧ should_draw_text_node n = true then
    (if isDup p (project sx sy n) (strTake n.txt 24) = true then p
     else p ++ [(project sx sy n, strTake n.txt 24)])
  else p

/-- The hrefs that reach link registration at one node, given the placed
records so far: the node must not be an `img` node, must be eligible and not
a duplicate, and must carry a non-empty href that the icon filter keeps. -/
def linkEncStep (cfg : Cfg) (sx sy : ℚ) (p : List (Rect × String)) (n : Node) :
    List String :=
  if n.tag = "img" ∧ n.src ≠ "" then []
  else if n.txt ≠ "" ∧ should_draw_text_node n = true then
    (if isDup p (project sx sy n) (strTake n.txt 24) = true then []
     else if n.href ≠ "" ∧ ¬(cfg.filter_icons = true ∧ is_icon_link n.href n.txt = true)
       then [n.href] else [])
  else []

/-- The sequence of hrefs the compositor's text branch registers, in paint
order, obtained by replaying the placed-record evolution. -/
def linkEncountersAux (cfg : Cfg) (sx sy : ℚ) :
    List Node → List (Rect × String) → List String
  | [], _ => []
  | n :: t, p =>
      linkEncStep cfg sx sy p n ++ linkEncountersAux cfg sx sy t (placedStep sx sy p n)

/-- The link-registration sequence of a whole snapshot render. -/
def linkEncounters (cfg : Cfg) (sx sy : ℚ) (nodes : List Node) : List String :=
  linkEncountersAux cfg sx sy nodes []

lemma textBranch_placed (cfg : Cfg) (s : RState) (n : Node) (r : Rect)
    (bold : Bool) :
    (textBranch cfg s n r bold).placed_text_rects =
      (if n.txt ≠ "" ∧ should_draw_text_node n = true then
        (if isDup s.placed_text_rects r (strTake n.txt 24) = true then
          s.placed_text_rects
         else s.placed_text_rects ++ [(r, strTake n.txt 24)])
       else s.placed_text_rects) := by
  by_cases heli : n.txt ≠ "" ∧ should_draw_text_node n = true
  · by_cases hdup : isDup s.placed_text_rects r (strTake n.txt 24) = true
    · rw [textBranch_dup cfg s n r bold heli hdup, if_pos heli, if_pos hdup]
    · rw [textBranch_painted cfg s n r bold heli (by simpa using hdup),
        if_pos heli, if_neg hdup]
      show (linkRegister cfg s n.href n.txt).1.placed_text_rects ++ _ = _
      rw [(linkRegister_fields cfg s n.href n.txt).2.2.2.2.1]
  · rw [textBranch_not_eligible cfg s n r bold heli, if_neg heli]

lemma linkRegister_link_map (cfg : Cfg) (s : RState) (href txt : String)
    (hsync : s.link_seen = s.link_map) :
    (linkRegister cfg s href txt).1.link_map =
      (if href ≠ "" ∧ ¬(cfg.filter_icons = true ∧ is_icon_link href txt = true)
       then regStep s.link_map href else s.link_map) := by
  by_cases hc : href ≠ "" ∧ ¬(cfg.filter_icons = true ∧ is_icon_link href txt = true)
  · rw [if_pos hc]
    by_cases hmem : href ∈ s.link_seen
    · have hmem' : href ∈ s.link_map := hsync ▸ hmem
      simp only [linkRegister, if_pos hc, if_pos hmem]
      rw [regStep, if_pos hmem']
    · have hnew : href ∉ s.link_map := by rw [← hsync]; exact hmem
      simp only [linkRegister, if_pos hc, if_neg hmem]
      rw [regStep, if_neg hnew]
  · rw [if_neg hc]
    simp only [linkRegister, if_neg hc]

lemma textBranch_link_map (cfg : Cfg) (s : RState) (n : Node) (r : Rect)
    (bold : Bool) (hsync : s.link_seen = s.link_map) :
    (textBranch cfg s n r bold).link_map =
      (if n.txt ≠ "" ∧ should_draw_text_node n = true then
        (if isDup s.placed_text_rects r (strTake n.txt 24) = true then s.link_map
         else if n.href ≠ "" ∧ ¬(cfg.filter_icons = true ∧ is_icon_link n.href n.txt = true)
           then regStep s.link_map n.href else s.link_map)
       else s.link_map) := by
  by_cases heli : n.txt ≠ "" ∧ should_draw_text_node n = true
  · by_cases hdup : isDup s.placed_text_rects r (strTake n.txt 24) = true
    · rw [textBranch_dup cfg s n r bold heli hdup, if_pos heli, if_pos hdup]
    · rw [textBranch_painted cfg s n r bold heli (by simpa using hdup),
        if_pos heli, if_neg hdup]
      show (linkRegister cfg s n.href n.txt).1.link_map = _
      exact linkRegister_link_map cfg s n.href n.txt hsync
  · rw [textBranch_not_eligible cfg s n r bold heli, if_neg heli]

lemma composite_step_placed (cfg : Cfg) (env : Env) (sx sy : ℚ) (cur : String)
    (s : RState) (n : Node) :
    (composite_step cfg env sx sy cur s n).placed_text_rects =
      placedStep sx sy s.placed_text_rects n := by
  by_cases himg : n.tag = "img" ∧ n.src ≠ ""
  · rw [composite_step_img cfg env sx sy cur s n himg, imageBranch_placed,
      placedStep, if_pos himg]
  · rw [placedStep, if_neg himg]
    by_cases hbg : strStartsWith n.bg "url(" = true
    · rw [composite_step_bg cfg env sx sy cur s n himg hbg, textBranch_placed,
        imageBranch_placed]
    · rw [composite_step_text cfg env sx sy cur s n himg (by simpa using hbg),
        textBranch_placed]

lemma composite_step_link_map (cfg : Cfg) (env : Env) (sx sy : ℚ) (cur : String)
    (s : RState) (n : Node) (hsync : s.link_seen = s.link_map) :
    (composite_step cfg env sx sy cur s n).link_map =
      (linkEncStep cfg sx sy s.placed_text_rects n).foldl regStep s.link_map := by
  by_cases himg : n.tag = "img" ∧ n.src ≠ ""
  · rw [composite_step_img cfg env sx sy cur s n himg, imageBranch_link_map,
      linkEncStep, if_pos himg]
    rfl
  · have key : ∀ s1 : RState, s1.link_seen = s1.link_map →
        s1.link_map = s.link_map → s1.placed_text_rects = s.placed_text_rects →
        (textBranch cfg s1 n (project sx sy n) (boldOf n)).link_map =
          (linkEncStep cfg sx sy s.placed_text_rects n).foldl regStep s.link_map := by
      intro s1 h1 h2 h3
      rw [textBranch_link_map cfg s1 n _ _ h1, h2, h3, linkEncStep, if_neg himg]
      by_cases heli : n.txt ≠ "" ∧ should_draw_text_node n = true
      · rw [if_pos heli, if_pos heli]
        by_cases hdup : isDup s.placed_text_rects (project sx sy n)
            (strTake n.txt 24) = true
        · rw [if_pos hdup, if_pos hdup]
          rfl
        · rw [if_neg hdup, if_neg hdup]
          by_cases hcond : n.href ≠ "" ∧
              ¬(cfg.filter_icons = true ∧ is_icon_link n.href n.txt = true)
          · rw [if_pos hcond, if_pos hcond]
            rfl
          · rw [if_neg hcond, if_neg hcond]
            rfl
      · rw [if_neg heli, if_neg heli]
        rfl
    by_cases hbg : strStartsWith n.bg "url(" = true
    · rw [composite_step_bg cfg env sx sy cur s n himg hbg]
      exact key _ (by rw [imageBranch_link_seen, imageBranch_link_map, hsync])
        (imageBranch_link_map cfg env cur s _ _ _ _)
        (imageBranch_placed cfg env cur s _ _ _ _)
    · rw [composite_step_text cfg env sx sy cur s n himg (by simpa using hbg)]
      exact key s hsync rfl rfl

lemma foldl_composite_link_map (cfg : Cfg) (env : Env) (sx sy : ℚ) (cur : String)
    (nodes : List Node) (s : RState) (hInv : Inv s) :
    (nodes.foldl (composite_step cfg env sx sy cur) s).link_map =
      (linkEncountersAux cfg sx sy nodes s.placed_text_rects).foldl regStep
        s.link_map := by
  induction nodes generalizing s with
  | nil => rfl
  | cons n t ih =>
      have hInv' := composite_step_inv cfg env sx sy cur s n hInv
      show (t.foldl (composite_step cfg env sx sy cur)
        (composite_step cfg env sx sy cur s n)).link_map = _
      rw [ih _ hInv', composite_step_placed,
        composite_step_link_map cfg env sx sy cur s n hInv.link_sync]
      show _ = (linkEncStep cfg sx sy s.placed_text_rects n ++
        linkEncountersAux cfg sx sy t (placedStep sx sy s.placed_text_rects n)).foldl
          regStep s.link_map
      rw [List.foldl_append]

/-- C6 (confirmed): both registries start empty at the beginning of a render,
never contain duplicate URLs, the image registry is exactly the first-seen
ordering of the image sources encountered in the single compositing pass and
the link registry is exactly the first-seen ordering of the hrefs that reach
registration (in paint order, replaying the placed-record evolution), every
painted `[IMG n]` placeholder and `"text [n]"` link suffix recorded in the
trace carries the 1-based first-occurrence index of its URL in the final
registry, and one step re-encountering an already-registered image URL
leaves the registry unchanged while a new URL is appended at the end. -/
theorem C6_registry_first_seen (cfg : Cfg) (env : Env) (sx sy : ℚ) (cur : String)
    (nodes : List Node) (s : RState) (n : Node)
    (hsync : s.img_seen = s.image_map)
    (htag : n.tag = "img") (hsrc : n.src ≠ "") :
    (initState cfg.width).link_map = [] ∧
    (initState cfg.width).image_map = [] ∧
    (composite cfg env sx sy cur nodes).image_map.Nodup ∧
    (composite cfg env sx sy cur nodes).link_map.Nodup ∧
    (composite cfg env sx sy cur nodes).image_map =
      firstSeen (imageEncounters env cur nodes) ∧
    (composite cfg env sx sy cur nodes).link_map =
      firstSeen (linkEncounters cfg sx sy nodes) ∧
    (∀ op ∈ (composite cfg env sx sy cur nodes).ops,
      OpValid (composite cfg env sx sy cur nodes).link_map
        (composite cfg env sx sy cur nodes).image_map op) ∧
    (n.src ∈ s.image_map →
      (composite_step cfg env sx sy cur s n).image_map = s.image_map) ∧
    (n.src ∉ s.image_map →
      (composite_step cfg env sx sy cur s n).image_map = s.image_map ++ [n.src]) := by
  have hInv := composite_inv cfg env sx sy cur nodes
  refine ⟨rfl, rfl, hInv.img_nodup, hInv.link_nodup, ?_, ?_, hInv.ops_ok, ?_, ?_⟩
  · rw [firstSeen_eq_foldl]
    exact foldl_composite_image_map cfg env sx sy cur nodes _ (initState_inv cfg.width)
  · rw [firstSeen_eq_foldl]
    exact foldl_composite_link_map cfg env sx sy cur nodes _ (initState_inv cfg.width)
  · intro hmem
    rw [composite_step_img cfg env sx sy cur s n ⟨htag, hsrc⟩,
      imageBranch_image_map_reg cfg env cur s n.src _ _ _ hsync, regStep, if_pos hmem]
  · intro hnew
    rw [composite_step_img cfg env sx sy cur s n ⟨htag, hsrc⟩,
      imageBranch_image_map_reg cfg env cur s n.src _ _ _ hsync, regStep, if_neg hnew]

/-- A concrete image node for the witnesses. -/
def nodeImg : Node :=
  ⟨"img", 0, 0, 100, 100, 0, "", "", "http://a.png", "", "", ""⟩

/-- A concrete anchor node with registrable text and href. -/
def nodeA : Node :=
  ⟨"a", 0, 200, 200, 20, 0, "Read more", "http://l/", "", "", "", "inline"⟩

/-- C6 witness: the registry theorem instantiated on an image-plus-anchor
snapshot, starting from the empty initial state. -/
theorem C6_registry_first_seen_witness :
    (initState (⟨110, true, true, true⟩ : Cfg).width).link_map = [] ∧
    (initState (⟨110, true, true, true⟩ : Cfg).width).image_map = [] ∧
    (composite ⟨110, true, true, true⟩ env0 1 1 "u" [nodeImg, nodeA]).image_map.Nodup ∧
    (composite ⟨110, true, true, true⟩ env0 1 1 "u" [nodeImg, nodeA]).link_map.Nodup ∧
    (composite ⟨110, true, true, true⟩ env0 1 1 "u" [nodeImg, nodeA]).image_map =
      firstSeen (imageEncounters env0 "u" [nodeImg, nodeA]) ∧
    (composite ⟨110, true, true, true⟩ env0 1 1 "u" [nodeImg, nodeA]).link_map =
      firstSeen (linkEncounters ⟨110, true, true, true⟩ 1 1 [nodeImg, nodeA]) ∧
    (∀ op ∈ (composite ⟨110, true, true, true⟩ env0 1 1 "u" [nodeImg, nodeA]).ops,
      OpValid (composite ⟨110, true, true, true⟩ env0 1 1 "u" [nodeImg, nodeA]).link_map
        (composite ⟨110, true, true, true⟩ env0 1 1 "u" [nodeImg, nodeA]).image_map op) ∧
    (nodeImg.src ∈ (initState 110).image_map →
      (composite_step ⟨110, true, true, true⟩ env0 1 1 "u" (initState 110) nodeImg).image_map =
        (initState 110).image_map) ∧
    (nodeImg.src ∉ (initState 110).image_map →
      (composite_step ⟨110, true, true, true⟩ env0 1 1 "u" (initState 110) nodeImg).image_map =
        (initState 110).image_map ++ [nodeImg.src]) :=
  C6_registry_first_seen ⟨110, true, true, true⟩ env0 1 1 "u" [nodeImg, nodeA]
    (initState 110) nodeImg rfl rfl (by decide)

/-- C10 (confirmed): per render the ASCII conversion is attempted for at most
`AUTO_IMG_MAX` (3) image nodes: the budget counter and the number of
ascii-art paint attempts recorded in the trace never exceed the cap; the
final counter value is identical under any two collaborator environments
(so a failed fetch/convert consumes the budget exactly like a success); a
step on an image node with budget remaining increments the counter by one
(again for every environment); and once the budget is exhausted an image
node paints only its `[IMG n]` placeholder — no ascii art op — leaving the
counter unchanged. -/
theorem C10_auto_image_budget (cfg : Cfg) (env env' : Env) (sx sy : ℚ)
    (cur : String) (nodes : List Node) (s s' : RState) (n : Node)
    (hexh : AUTO_IMG_MAX ≤ s.auto_img_count)
    (htag : n.tag = "img") (hsrc : n.src ≠ "")
    (hauto : cfg.auto_image = true) (hlt : s'.auto_img_count < AUTO_IMG_MAX) :
    (composite cfg env sx sy cur nodes).auto_img_count ≤ AUTO_IMG_MAX ∧
    (composite cfg env sx sy cur nodes).ops.countP isAsciiOp ≤ AUTO_IMG_MAX ∧
    (composite cfg env sx sy cur nodes).auto_img_count =
      (composite cfg env' sx sy cur nodes).auto_img_count ∧
    (composite_step cfg env sx sy cur s' n).auto_img_count = s'.auto_img_count + 1 ∧
    (composite_step cfg env sx sy cur s n).auto_img_count = s.auto_img_count ∧
    (composite_step cfg env sx sy cur s n).ops =
      s.ops ++ [PaintOp.placeholder n.src
        (pyIndex (composite_step cfg env sx sy cur s n).image_map n.src + 1)
        (project sx sy n).2.1 (project sx sy n).1 (project sx sy n).2.2.1] := by
  have hcount : (composite cfg env sx sy cur nodes).auto_img_count ≤ AUTO_IMG_MAX := by
    show ((nodes.foldl (composite_step cfg env sx sy cur) (initState cfg.width))).auto_img_count ≤ _
    rw [foldl_composite_count]
    exact foldl_countStep_le cfg nodes 0 (Nat.zero_le _)
  have hnb : ¬(cfg.auto_image = true ∧ s.auto_img_count < AUTO_IMG_MAX) := by
    rintro ⟨-, hc⟩
    omega
  refine ⟨hcount, ?_, ?_, ?_, ?_, ?_⟩
  · have := foldl_composite_ascii_count cfg env sx sy cur nodes (initState cfg.width) rfl
    show ((nodes.foldl (composite_step cfg env sx sy cur) (initState cfg.width))).ops.countP isAsciiOp ≤ _
    rw [this]
    exact hcount
  · show ((nodes.foldl (composite_step cfg env sx sy cur) (initState cfg.width))).auto_img_count =
      ((nodes.foldl (composite_step cfg env' sx sy cur) (initState cfg.width))).auto_img_count
    rw [foldl_composite_count, foldl_composite_count]
  · rw [composite_step_count, countStep, if_pos (Or.inl ⟨htag, hsrc⟩),
      if_pos ⟨hauto, hlt⟩]
  · rw [composite_step_count, countStep, if_pos (Or.inl ⟨htag, hsrc⟩), if_neg hnb]
  · rw [composite_step_img cfg env sx sy cur s n ⟨htag, hsrc⟩, imageBranch_ops,
      if_neg hnb, List.append_nil]

/-- C10 witness: the budget theorem instantiated on a one-image snapshot with
an exhausted state (counter 3) and a fresh state (counter 0). -/
theorem C10_auto_image_budget_witness :
    (composite ⟨110, true, true, true⟩ env0 1 1 "u" [nodeImg]).auto_img_count ≤ AUTO_IMG_MAX ∧
    (composite ⟨110, true, true, true⟩ env0 1 1 "u" [nodeImg]).ops.countP isAsciiOp ≤ AUTO_IMG_MAX ∧
    (composite ⟨110, true, true, true⟩ env0 1 1 "u" [nodeImg]).auto_img_count =
      (composite ⟨110, true, true, true⟩ envC3 1 1 "u" [nodeImg]).auto_img_count ∧
    (composite_step ⟨110, true, true, true⟩ env0 1 1 "u" (initState 110) nodeImg).auto_img_count =
      (initState 110).auto_img_count + 1 ∧
    (composite_step ⟨110, true, true, true⟩ env0 1 1 "u"
        { initState 110 with auto_img_count := 3 } nodeImg).auto_img_count =
      ({ initState 110 with auto_img_count := 3 } : RState).auto_img_count ∧
    (composite_step ⟨110, true, true, true⟩ env0 1 1 "u"
        { initState 110 with auto_img_count := 3 } nodeImg).ops =
      ({ initState 110 with auto_img_count := 3 } : RState).ops ++
        [PaintOp.placeholder nodeImg.src
          (pyIndex (composite_step ⟨110, true, true, true⟩ env0 1 1 "u"
            { initState 110 with auto_img_count := 3 } nodeImg).image_map nodeImg.src + 1)
          (project 1 1 nodeImg).2.1 (project 1 1 nodeImg).1 (project 1 1 nodeImg).2.2.1] :=
  C10_auto_image_budget ⟨110, true, true, true⟩ env0 envC3 1 1 "u" [nodeImg]
    { initState 110 with auto_img_count := 3 } (initState 110) nodeImg
    (by decide) rfl (by decide) rfl (by decide)

/-- C7 (amended): the `img`-tag branch is exclusive — an `img` node with a
resolved source is handled only by the image branch (`continue`), leaving
the placed-text records and the link registry untouched — but the
background-image branch is *not*: a block carrying a CSS `background-image`
URL registers the image and then falls through to the text branch, so its
text is still eligible for painting and deduplication (the source has no
`continue` after the background-image block; see the counterexample). -/
theorem C7_branch_exclusivity (cfg : Cfg) (env : Env) (sx sy : ℚ) (cur : String)
    (s : RState) (n m : Node)
    (htag : n.tag = "img") (hsrc : n.src ≠ "")
    (hmimg : ¬(m.tag = "img" ∧ m.src ≠ ""))
    (hmbg : strStartsWith m.bg "url(" = true) :
    (composite_step cfg env sx sy cur s n).placed_text_rects = s.placed_text_rects ∧
    (composite_step cfg env sx sy cur s n).link_map = s.link_map ∧
    (composite_step cfg env sx sy cur s n).link_seen = s.link_seen ∧
    (composite_step cfg env sx sy cur s m) =
      textBranch cfg
        (imageBranch cfg env cur s (bgUrl env cur m) (project sx sy m).2.1
          (project sx sy m).1 (project sx sy m).2.2.1)
        m (project sx sy m) (boldOf m) := by
  rw [composite_step_img cfg env sx sy cur s n ⟨htag, hsrc⟩]
  exact ⟨imageBranch_placed cfg env cur s n.src _ _ _,
    imageBranch_link_map cfg env cur s n.src _ _ _,
    imageBranch_link_seen cfg env cur s n.src _ _ _,
    composite_step_bg cfg env sx sy cur s m hmimg hmbg⟩

/-- A background-image block node carrying eligible text. -/
def nodeBg : Node :=
  ⟨"div", 0, 0, 500, 100, 0, "0123456789012345678901234567890123456789", "", "",
   "url(http://a/b.png)", "", "block"⟩

/-- C7 witness: the branch theorem instantiated on the concrete `img` node
and the concrete background-image node. -/
theorem C7_branch_exclusivity_witness :
    (composite_step ⟨110, true, true, true⟩ env0 1 1 "u" (initState 110) nodeImg).placed_text_rects =
      (initState 110).placed_text_rects ∧
    (composite_step ⟨110, true, true, true⟩ env0 1 1 "u" (initState 110) nodeImg).link_map =
      (initState 110).link_map ∧
    (composite_step ⟨110, true, true, true⟩ env0 1 1 "u" (initState 110) nodeImg).link_seen =
      (initState 110).link_seen ∧
    (composite_step ⟨110, true, true, true⟩ env0 1 1 "u" (initState 110) nodeBg) =
      textBranch ⟨110, true, true, true⟩
        (imageBranch ⟨110, true, true, true⟩ env0 "u" (initState 110)
          (bgUrl env0 "u" nodeBg) (project 1 1 nodeBg).2.1
          (project 1 1 nodeBg).1 (project 1 1 nodeBg).2.2.1)
        nodeBg (project 1 1 nodeBg) (boldOf nodeBg) :=
  C7_branch_exclusivity ⟨110, true, true, true⟩ env0 1 1 "u" (initState 110)
    nodeImg nodeBg rfl (by decide) (by decide) (by decide)

/-- C7 counterexample: a `div` with background image `url(http://a/b.png)`
and 40 characters of eligible text, rendered alone, ends up *both* in the
image registry and painted as text (one placed-text record) — refuting the
claim that image-source nodes are handled only by the image branch with
their text never painted or deduplicated. -/
theorem C7_bg_fallthrough_counterexample :
    (render_snapshot ⟨120, true, false, false⟩ env0 "u" "u" [nodeBg]).1.image_map =
      ["http://a/b.png"] ∧
    (render_snapshot ⟨120, true, false, false⟩ env0 "u" "u" [nodeBg]).1.placed_text_rects.length = 1 := by
  have key : ∀ sx sy : ℚ,
      (composite ⟨120, true, false, false⟩ env0 sx sy "u" [nodeBg]).image_map =
        ["http://a/b.png"] ∧
      (composite ⟨120, true, false, false⟩ env0 sx sy "u" [nodeBg]).placed_text_rects.length = 1 := by
    intro sx sy
    have hstep : composite ⟨120, true, false, false⟩ env0 sx sy "u" [nodeBg] =
        composite_step ⟨120, true, false, false⟩ env0 sx sy "u" (initState 120) nodeBg := rfl
    have hbgurl : bgUrl env0 "u" nodeBg = "http://a/b.png" := by decide
    rw [hstep, composite_step_bg _ _ _ _ _ _ _ (by decide) (by decide)]
    have hib := imageBranch_image_map_reg ⟨120, true, false, false⟩ env0 "u"
      (initState 120) (bgUrl env0 "u" nodeBg) (project sx sy nodeBg).2.1
      (project sx sy nodeBg).1 (project sx sy nodeBg).2.2.1 rfl
    have hibseen := imageBranch_image_map_new ⟨120, true, false, false⟩ env0 "u"
      (initState 120) (bgUrl env0 "u" nodeBg) (project sx sy nodeBg).2.1
      (project sx sy nodeBg).1 (project sx sy nodeBg).2.2.1
      (by rw [hbgurl]; exact List.not_mem_nil _)
    have hibplaced := imageBranch_placed ⟨120, true, false, false⟩ env0 "u"
      (initState 120) (bgUrl env0 "u" nodeBg) (project sx sy nodeBg).2.1
      (project sx sy nodeBg).1 (project sx sy nodeBg).2.2.1
    have heli : nodeBg.txt ≠ "" ∧ should_draw_text_node nodeBg = true :=
      ⟨by decide, by decide⟩
    have hdup : isDup (imageBranch ⟨120, true, false, false⟩ env0 "u" (initState 120)
        (bgUrl env0 "u" nodeBg) (project sx sy nodeBg).2.1 (project sx sy nodeBg).1
        (project sx sy nodeBg).2.2.1).placed_text_rects (project sx sy nodeBg)
        (strTake nodeBg.txt 24) = false := by
      rw [hibplaced]
      rfl
    rw [textBranch_painted _ _ _ _ _ heli hdup]
    constructor
    · show (linkRegister _ _ _ _).1.image_map = _
      rw [(linkRegister_fields _ _ _ _).2.1, hib, hbgurl]
      rfl
    · show ((linkRegister _ _ _ _).1.placed_text_rects ++ _).length = 1
      rw [(linkRegister_fields _ _ _ _).2.2.2.2.1, hibplaced]
      rfl
  exact key _ _

/-- C2 (amended): deduplication is a two-signal test with a *strict*
threshold: an eligible text node is dropped — the step leaves the state
completely unchanged, so nothing is painted and no link is registered — when
some already-placed record overlaps its projected rectangle with IoU
strictly greater than 0.65 and the 24-character prefixes are
substring-related; and it is kept (its record appended) whenever every
placed record has IoU exactly 0.3, even when its text is identical. At IoU
exactly 0.65 the source's `> 0.65` keeps the candidate, refuting the
claim's "at least 0.65" (see the counterexample). -/
theorem C2_dedup_two_signal (cfg : Cfg) (env : Env) (sx sy : ℚ) (cur : String)
    (s : RState) (n : Node)
    (hnimg : ¬(n.tag = "img" ∧ n.src ≠ ""))
    (hnbg : strStartsWith n.bg "url(" = false)
    (heli : n.txt ≠ "" ∧ should_draw_text_node n = true) :
    ((∃ pr ∈ s.placed_text_rects,
        rect_iou (project sx sy n) pr.1 > 13 / 20 ∧
        (strIn (strTake n.txt 24) pr.2 = true ∨ strIn pr.2 (strTake n.txt 24) = true)) →
      composite_step cfg env sx sy cur s n = s) ∧
    ((∀ pr ∈ s.placed_text_rects, rect_iou (project sx sy n) pr.1 = 3 / 10) →
      (composite_step cfg env sx sy cur s n).placed_text_rects =
        s.placed_text_rects ++ [(project sx sy n, strTake n.txt 24)]) := by
  constructor
  · rintro ⟨pr, hpr, hiou, hsub⟩
    have hdup : isDup s.placed_text_rects (project sx sy n) (strTake n.txt 24) = true := by
      rw [isDup, List.any_eq_true]
      refine ⟨pr, hpr, ?_⟩
      rw [Bool.and_eq_true, decide_eq_true_eq]
      refine ⟨hiou, ?_⟩
      rw [Bool.or_eq_true]
      exact hsub
    rw [composite_step_text cfg env sx sy cur s n hnimg hnbg,
      textBranch_dup cfg s n _ _ heli hdup]
  · intro hall
    have hdup : isDup s.placed_text_rects (project sx sy n) (strTake n.txt 24) = false := by
      rw [Bool.eq_false_iff]
      intro hany
      rw [isDup, List.any_eq_true] at hany
      obtain ⟨pr, hpr, hop⟩ := hany
      rw [Bool.and_eq_true, decide_eq_true_eq] at hop
      have := hop.1
      rw [hall pr hpr] at this
      norm_num at this
    rw [composite_step_text cfg env sx sy cur s n hnimg hnbg,
      textBranch_painted cfg s n _ _ heli hdup]
    show (linkRegister cfg s n.href n.txt).1.placed_text_rects ++ _ = _
    rw [(linkRegister_fields cfg s n.href n.txt).2.2.2.2.1]

/-- A plain paragraph node whose 130 px width projects to 13 columns at
scale 1/10. -/
def nodeP1 : Node :=
  ⟨"p", 0, 0, 130, 20, 0, "duptext", "", "", "", "", "block"⟩

/-- A second paragraph node with identical text whose 200 px width projects
to 20 columns, giving IoU exactly 13/20 = 0.65 against the first. -/
def nodeP2 : Node :=
  ⟨"p", 0, 0, 200, 20, 0, "duptext", "", "", "", "", "block"⟩

/-- C2 witness: the amended theorem instantiated on a fresh state and the
concrete paragraph node (both dedup directions with the empty placed list). -/
theorem C2_dedup_two_signal_witness :
    ((∃ pr ∈ (initState 110).placed_text_rects,
        rect_iou (project 1 1 nodeP1) pr.1 > 13 / 20 ∧
        (strIn (strTake nodeP1.txt 24) pr.2 = true ∨
          strIn pr.2 (strTake nodeP1.txt 24) = true)) →
      composite_step ⟨110, true, false, false⟩ env0 1 1 "u" (initState 110) nodeP1 =
        initState 110) ∧
    ((∀ pr ∈ (initState 110).placed_text_rects,
        rect_iou (project 1 1 nodeP1) pr.1 = 3 / 10) →
      (composite_step ⟨110, true, false, false⟩ env0 1 1 "u" (initState 110) nodeP1).placed_text_rects =
        (initState 110).placed_text_rects ++ [(project 1 1 nodeP1, strTake nodeP1.txt 24)]) :=
  C2_dedup_two_signal ⟨110, true, false, false⟩ env0 1 1 "u" (initState 110) nodeP1
    (by decide) (by decide) ⟨by decide, by decide⟩

/-- C2 counterexample: two identical-text paragraph nodes whose projected
rectangles `(0,0,13,1)` and `(0,0,20,1)` have IoU exactly 13/20 = 0.65 with
substring-related prefixes; the claim ("at least 0.65 → dropped") would drop
the second node, but the source's strict `> 0.65` keeps it: both nodes end
up painted (two placed-text records). -/
theorem C2_dedup_threshold_counterexample :
    rect_iou (0, 0, 20, 1) (0, 0, 13, 1) = 13 / 20 ∧
    strIn (strTake "duptext" 24) "duptext" = true ∧
    (render_snapshot ⟨120, true, false, false⟩ env0 "u" "u" [nodeP1, nodeP2]).1.placed_text_rects =
      [((0, 0, 13, 1), "duptext"), ((0, 0, 20, 1), "duptext")] := by
  have hiou : rect_iou ((0 : ℤ), (0 : ℤ), (20 : ℤ), (1 : ℤ))
      ((0 : ℤ), (0 : ℤ), (13 : ℤ), (1 : ℤ)) = 13 / 20 := by
    simp only [rect_iou]
    norm_num
  refine ⟨hiou, by decide, ?_⟩
  have hvp : vp_w [nodeP1, nodeP2] = 1200 := by decide
  set sxv : ℚ := (((⟨120, true, false, false⟩ : Cfg).width : ℕ) : ℚ) /
    ((vp_w [nodeP1, nodeP2] : ℤ) : ℚ) with hsxv
  set syv : ℚ := sxv * ROW_ASPECT with hsyv
  have hsx : sxv = 1 / 10 := by
    rw [hsxv, hvp]
    norm_num
  have hsy : syv = 13 / 250 := by
    rw [hsyv, hsx, ROW_ASPECT]
    norm_num
  have hrender : (render_snapshot ⟨120, true, false, false⟩ env0 "u" "u"
      [nodeP1, nodeP2]).1 =
      composite ⟨120, true, false, false⟩ env0 sxv syv "u" [nodeP1, nodeP2] := rfl
  have hp1 : project sxv syv nodeP1 = (0, 0, 13, 1) := by
    have e1 : rtrunc (((0 : ℤ) : ℚ) * (1 / 10)) = 0 := by rw [rtrunc]; norm_num
    have e2 : rtrunc (((0 : ℤ) : ℚ) * (13 / 250)) = 0 := by rw [rtrunc]; norm_num
    have e3 : rtrunc (((130 : ℤ) : ℚ) * (1 / 10)) = 13 := by rw [rtrunc]; norm_num
    have e4 : rtrunc (((20 : ℤ) : ℚ) * (13 / 250)) = 1 := by
      rw [rtrunc, if_neg (by norm_num)]
      rw [show ((20 : ℤ) : ℚ) * (13 / 250) = 26 / 25 by norm_num]
      norm_num
    simp only [project, nodeP1, hsx, hsy]
    rw [e1, e2, e3, e4]
    decide
  have hp2 : project sxv syv nodeP2 = (0, 0, 20, 1) := by
    have e1 : rtrunc (((0 : ℤ) : ℚ) * (1 / 10)) = 0 := by rw [rtrunc]; norm_num
    have e2 : rtrunc (((0 : ℤ) : ℚ) * (13 / 250)) = 0 := by rw [rtrunc]; norm_num
    have e3 : rtrunc (((200 : ℤ) : ℚ) * (1 / 10)) = 20 := by rw [rtrunc]; norm_num
    have e4 : rtrunc (((20 : ℤ) : ℚ) * (13 / 250)) = 1 := by
      rw [rtrunc, if_neg (by norm_num)]
      rw [show ((20 : ℤ) : ℚ) * (13 / 250) = 26 / 25 by norm_num]
      norm_num
    simp only [project, nodeP2, hsx, hsy]
    rw [e1, e2, e3, e4]
    decide
  have hs1 : (composite_step ⟨120, true, false, false⟩ env0 sxv syv "u"
      (initState 120) nodeP1).placed_text_rects = [((0, 0, 13, 1), "duptext")] := by
    rw [composite_step_text _ _ _ _ _ _ _ (by decide) (by decide),
      textBranch_painted ⟨120, true, false, false⟩ (initState 120) nodeP1
        (project sxv syv nodeP1) (boldOf nodeP1) ⟨by decide, by decide⟩ rfl]
    show (linkRegister _ _ _ _).1.placed_text_rects ++ _ = _
    rw [(linkRegister_fields _ _ _ _).2.2.2.2.1, hp1]
    rfl
  have hdup2 : isDup (composite_step ⟨120, true, false, false⟩ env0 sxv syv "u"
      (initState 120) nodeP1).placed_text_rects (project sxv syv nodeP2)
      (strTake nodeP2.txt 24) = false := by
    rw [hs1, hp2]
    simp only [isDup, List.any_cons, List.any_nil, Bool.or_false]
    rw [show (decide (rect_iou ((0 : ℤ), (0 : ℤ), (20 : ℤ), (1 : ℤ))
        ((0 : ℤ), (0 : ℤ), (13 : ℤ), (1 : ℤ)) > (13 : ℚ) / 20)) = false from
      decide_eq_false (by rw [hiou]; exact lt_irrefl _), Bool.false_and]
  rw [hrender]
  show (composite_step ⟨120, true, false, false⟩ env0 sxv syv "u"
    (composite_step ⟨120, true, false, false⟩ env0 sxv syv "u" (initState 120) nodeP1)
    nodeP2).placed_text_rects = _
  rw [composite_step_text _ _ _ _ _ _ _ (by decide) (by decide),
    textBranch_painted _ _ _ _ _ ⟨by decide, by decide⟩ hdup2]
  show (linkRegister _ _ _ _).1.placed_text_rects ++ _ = _
  rw [(linkRegister_fields _ _ _ _).2.2.2.2.1, hs1, hp2]
  rfl

/-- C1 (amended): the snapshot path is total — when JS mode is on,
Playwright is present and the snapshot succeeds with a nonempty node list,
`load_url` returns the rendered text for *every* behaviour of the image
fetch/decode collaborators (image failures only ever produce placeholder
strings); a snapshot failure or empty snapshot falls back; and the fallback
path returns text whenever its own initial HTTP fetch succeeds. The claim's
stronger assertion — that this also holds when the fallback fetch itself
fails — is refuted by the counterexample: `_render_fallback_url` does not
guard `self.req.get`, so that exception escapes `load_url`. -/
theorem C1_render_totality (cfg : Cfg) (env : Env) (url final_url : String)
    (nodes : List Node)
    (hjs : cfg.js_mode = true) (hpw : env.have_pw = true)
    (hsnap : env.snapshot_dom url = Except.ok (nodes, final_url))
    (hne : nodes ≠ []) :
    load_url cfg env url = Except.ok (render_snapshot cfg env url final_url nodes).2 ∧
    (∀ (env' : Env) (url' : String) (doc' : FallbackDoc),
      env'.fallback_get url' = Except.ok doc' →
      ∃ t, render_fallback_url cfg env' url' = Except.ok t) ∧
    (∀ (env' : Env) (url' : String) (doc' : FallbackDoc),
      env'.fallback_get url' = Except.ok doc' →
      ∃ t, load_url cfg env' url' = Except.ok t) := by
  have hfb_total : ∀ (env' : Env) (url' : String) (doc' : FallbackDoc),
      env'.fallback_get url' = Except.ok doc' →
      ∃ t, render_fallback_url cfg env' url' = Except.ok t := by
    intro env' url' doc' hfb
    rw [render_fallback_url, hfb]
    exact ⟨_, rfl⟩
  refine ⟨?_, hfb_total, ?_⟩
  · simp only [load_url, hjs, hpw, hsnap, hne]
    simp
  · intro env' url' doc' hfb
    rw [load_url]
    split
    · cases hs : env'.snapshot_dom url' with
      | error e =>
          exact hfb_total env' url' doc' hfb
      | ok p =>
          obtain ⟨nodes', fu⟩ := p
          show ∃ t, (if nodes' = [] then render_fallback_url cfg env' url'
            else Except.ok (render_snapshot cfg env' url' fu nodes').2) = Except.ok t
          by_cases hnil : nodes' = []
          · rw [if_pos hnil]
            exact hfb_total env' url' doc' hfb
          · rw [if_neg hnil]
            exact ⟨_, rfl⟩
    · exact hfb_total env' url' doc' hfb

/-- Environment with a successful one-node snapshot and a successful
fallback fetch, for the C1 witness. -/
def envSnap : Env :=
  { env0 with
    snapshot_dom := fun _ => Except.ok ([nodeP1], "http://f/"),
    fallback_get := fun _ => Except.ok ⟨"http://f/", [], [], "hello"⟩ }

/-- C1 witness: the totality theorem instantiated on the concrete
one-node snapshot environment. -/
theorem C1_render_totality_witness :
    load_url ⟨110, true, true, true⟩ envSnap "http://x/" =
      Except.ok (render_snapshot ⟨110, true, true, true⟩ envSnap "http://x/"
        "http://f/" [nodeP1]).2 ∧
    (∀ (env' : Env) (url' : String) (doc' : FallbackDoc),
      env'.fallback_get url' = Except.ok doc' →
      ∃ t, render_fallback_url ⟨110, true, true, true⟩ env' url' = Except.ok t) ∧
    (∀ (env' : Env) (url' : String) (doc' : FallbackDoc),
      env'.fallback_get url' = Except.ok doc' →
      ∃ t, load_url ⟨110, true, true, true⟩ env' url' = Except.ok t) :=
  C1_render_totality ⟨110, true, true, true⟩ envSnap "http://x/" "http://f/"
    [nodeP1] rfl rfl rfl (by decide)

/-- C1 counterexample: with JS mode on, a failing snapshot and a failing
fallback fetch, `load_url` propagates the fallback fetch's exception
(`.error`) instead of returning text — the unguarded `self.req.get` inside
`_render_fallback_url` escapes `load_url`'s boundary. -/
theorem C1_fallback_fetch_counterexample :
    load_url ⟨110, true, true, true⟩ env0 "http://x/" = Except.error "fetch failed" ∧
    ¬ ∃ t, load_url ⟨110, true, true, true⟩ env0 "http://x/" = Except.ok t := by
  refine ⟨rfl, ?_⟩
  rintro ⟨t, ht⟩
  rw [show load_url ⟨110, true, true, true⟩ env0 "http://x/" =
    Except.error "fetch failed" from rfl] at ht
  exact Except.noConfusion ht

end TermSurf
